import Mathlib

/-!
# Tile-layer availability (rocky `TileLayer.cpp`)

A shallow embedding of the tile-availability core of `src/rocky/TileLayer.cpp`:
`isKeyInLegalRange`, `isKeyInVisualRange`, `getDataExtentsUnion`,
`getBestAvailableTileKey` and `mayHaveData`, with the mutable caches of the layer
(`_dataExtentsUnion`, `_dataExtentsIndex`) passed explicitly as state; of the
configuration setters, getters and data-extent mutators of the layer; of the cache-bin
metadata (its copy constructor, `CacheBinMetadata(const Config&)` and `getConfig`); and of
the comparison operators of
`GeometryKey` in `src/rocky_vsg/GeometryPool.h`.

Conventions.
* `unsigned` values are natural numbers; the functions embedded here only compare and
  copy them, so no wrap-around can occur.  The casts `(int)de.minLevel().value()` are
  compared against an `unsigned`, which converts them back, so they are the identity.
* `double` values are rationals; the embedded functions only compare them.  All
  floating-point arithmetic (tile resolution, unit conversion, reprojection) lives in the
  collaborators gathered in `Env`.
* Collaborators whose code is outside `TileLayer.cpp` (profiles, extents, the R-tree) are
  either fields of `Env`, so that every theorem holds for whatever they compute, or are
  modelled from the specification and marked as such.
-/

namespace Rocky

/-! ## Data model -/

/-- rocky `optional<T>`: a flag telling whether a value was assigned, and the value itself,
which is the default while the flag is off.  Converting an `optional<T>` to `T`
(as in `unsigned MDL = _maxDataLevel`) reads `value` whatever the flag. -/
structure optional (T : Type) where
  has_value : Bool
  value : T
deriving DecidableEq

/-- The assignment `opt = v` of a plain value to an `optional<T>`. -/
def optional.assign {T : Type} (v : T) : optional T := ⟨true, v⟩

/-- Modelled from the spec: SRS, a spatial reference system, identified by its definition
string. -/
structure SRS where
  definition : String
deriving DecidableEq

/-- Modelled from the spec: Profile, "a spatial reference system plus a root tiling scheme
(extent of LOD 0, number of root tiles)"; only the parts read by the layer code are kept.
`valid` is false for a default-constructed profile. -/
structure Profile where
  valid : Bool
  srs : SRS
  numTilesWideAtLod0 : Nat
  numTilesHighAtLod0 : Nat
deriving DecidableEq

/-- Modelled from the spec: GeoExtent, a georeferenced rectangle
(`GeoExtent(srs, xmin, ymin, xmax, ymax)`), with its validity flag. -/
structure GeoExtent where
  valid : Bool
  srs : SRS
  xMin : ℚ
  yMin : ℚ
  xMax : ℚ
  yMax : ℚ
deriving DecidableEq

/-- Modelled from the spec: DataExtent, "a georeferenced rectangle with optional `minLevel`
and `maxLevel`". -/
structure DataExtent extends GeoExtent where
  minLevel : optional Nat
  maxLevel : optional Nat
deriving DecidableEq

/-- Modelled from the spec: TileKey, "an immutable triple (lod, x, y) plus a reference to a
Profile". -/
structure TileKey where
  levelOfDetail : Nat
  tileX : Nat
  tileY : Nat
  profile : Profile
deriving DecidableEq

/-- Modelled from the spec: the sentinel `TileKey::INVALID` (and the default-constructed
key), a key over a default-constructed, invalid profile. -/
def TileKey.INVALID : TileKey := ⟨0, 0, 0, ⟨false, ⟨""⟩, 0, 0⟩⟩

/-- Modelled from the spec: `key.valid()`, "false for a sentinel INVALID": a key is valid
when its profile is. -/
def TileKey.valid (key : TileKey) : Bool := key.profile.valid

/-- Modelled from the spec: `key.createAncestorKey(targetLod)` "returns an ancestor at
`targetLod ≤ lod`; if `targetLod > lod`, returns `INVALID`", and it "descends the quadtree
by integer right-shift". -/
def TileKey.createAncestorKey (key : TileKey) (ancestorLod : Nat) : TileKey :=
  if ancestorLod > key.levelOfDetail then TileKey.INVALID
  else
    { levelOfDetail := ancestorLod
      tileX := key.tileX >>> (key.levelOfDetail - ancestorLod)
      tileY := key.tileY >>> (key.levelOfDetail - ancestorLod)
      profile := key.profile }

/-- The rectangle `(a_min, a_max)` handed to the R-tree. -/
structure Rect where
  xMin : ℚ
  yMin : ℚ
  xMax : ℚ
  yMax : ℚ
deriving DecidableEq

/-- Modelled from the spec: the R-tree test "entry whose rectangle intersects the query":
two closed rectangles overlap unless one lies strictly beyond the other on some axis. -/
def Rect.Overlap (a b : Rect) : Bool :=
  !(decide (a.xMin > b.xMax) || decide (b.xMin > a.xMax)
    || decide (a.yMin > b.yMax) || decide (b.yMin > a.yMax))

/-- Modelled from the spec: `RTree<DataExtent, double, 2>`, "a generic R-tree over 2-D
axis-aligned rectangles with arbitrary payloads", kept as the list of inserted entries. -/
structure DataExtentsIndex where
  entries : List (Rect × DataExtent)
deriving DecidableEq

/-- Modelled from the spec: `Insert(min[2], max[2], payload)`. -/
def DataExtentsIndex.Insert (t : DataExtentsIndex) (r : Rect) (de : DataExtent) :
    DataExtentsIndex :=
  ⟨t.entries ++ [(r, de)]⟩

/-- The collaborators of `TileLayer` whose code lies outside `TileLayer.cpp`.  Every theorem
is stated for an arbitrary `Env`. -/
structure Env where
  /-- The call `self.getEquivalentLOD(rhsProfile, rhsLOD)`. -/
  getEquivalentLOD : Profile → Profile → Nat → Nat
  /-- The call `key.extent()`. -/
  extent : TileKey → GeoExtent
  /-- The quotient `extent.width() / (double)tileSize`. -/
  resKey : GeoExtent → Nat → ℚ
  /-- The call `fromSrs.units().convertTo(toSrs.units(), value)`. -/
  convertTo : SRS → SRS → ℚ → ℚ
  /-- The call `a.intersects(b)` on extents. -/
  intersects : GeoExtent → GeoExtent → Bool
  /-- The call `a.expandToInclude(b)`, returning the grown `a`. -/
  expandToInclude : GeoExtent → GeoExtent → GeoExtent
  /-- The call `profile.clampAndTransformExtent(extent)`. -/
  clampAndTransformExtent : Profile → GeoExtent → GeoExtent
  /-- The call `srs.isGeographic()`. -/
  isGeographic : SRS → Bool
  /-- The call `extent.crossesAntimeridian()`. -/
  crossesAntimeridian : GeoExtent → Bool
  /-- The call `extent.splitAcrossAntimeridian(west, east)`, returning `(west, east)`. -/
  splitAcrossAntimeridian : GeoExtent → GeoExtent × GeoExtent
  /-- The order in which the R-tree traverses its entries: "the visit order is
  unspecified". -/
  visitOrder : List (Rect × DataExtent) → List (Rect × DataExtent)

/-- The members of `TileLayer` used by the availability code. `_dataExtentsIndex` is `none`
for `nullptr`. -/
structure TileLayer where
  _minLevel : optional Nat
  _maxLevel : optional Nat
  _minResolution : optional ℚ
  _maxResolution : optional ℚ
  _maxDataLevel : optional Nat
  _tileSize : optional Nat
  _upsample : optional Bool
  _profile : Profile
  _reopenRequired : Bool
  _writingRequested : Bool
  _dataExtents : List DataExtent
  _dataExtentsUnion : DataExtent
  _dataExtentsIndex : Option DataExtentsIndex

namespace TileLayer

/-! ## Gates -/

/-- The local `localLOD` of the three gate functions: the layer profile's equivalent of the
key's level when the layer has a valid profile, the key's own level otherwise. -/
def localLOD (env : Env) (self : TileLayer) (key : TileKey) : Nat :=
  if self._profile.valid then
    env.getEquivalentLOD self._profile key.profile key.levelOfDetail
  else
    key.levelOfDetail

/-- The local `resLayer`: the key's resolution (extent width over tile size) converted into
the units of the layer's SRS. -/
def resLayer (env : Env) (self : TileLayer) (key : TileKey) : ℚ :=
  env.convertTo key.profile.srs self._profile.srs
    (env.resKey (env.extent key) self._tileSize.value)

/-- The test "check the key against the min/max level limits, if they are set"; true when
the key is rejected. -/
def levelLimitsReject (self : TileLayer) (lod : Nat) : Bool :=
  (self._maxLevel.has_value && decide (lod > self._maxLevel.value)) ||
  (self._minLevel.has_value && decide (lod < self._minLevel.value))

/-- The block "check against resolution limits (based on the source tile size)"; true when
the key is rejected. -/
def resolutionLimitsReject (env : Env) (self : TileLayer) (key : TileKey) : Bool :=
  if self._minResolution.has_value || self._maxResolution.has_value then
    if self._profile.valid then
      if self._maxResolution.has_value &&
          decide (self._maxResolution.value > resLayer env self key) then
        true
      else if self._minResolution.has_value &&
          decide (self._minResolution.value < resLayer env self key) then
        true
      else
        false
    else
      false
  else
    false

/-- Embedding of `TileLayer::isKeyInLegalRange`. -/
def isKeyInLegalRange (env : Env) (self : TileLayer) (key : TileKey) : Bool :=
  if !key.valid then false
  else if levelLimitsReject self (localLOD env self key) then false
  else if self._maxDataLevel.has_value &&
      decide (localLOD env self key > self._maxDataLevel.value) then false
  else if resolutionLimitsReject env self key then false
  else true

/-- Embedding of `TileLayer::isKeyInVisualRange`. -/
def isKeyInVisualRange (env : Env) (self : TileLayer) (key : TileKey) : Bool :=
  if !key.valid then false
  else if levelLimitsReject self (localLOD env self key) then false
  else if resolutionLimitsReject env self key then false
  else true

/-! ## Data extents -/

/-- Embedding of `TileLayer::getDataExtentsSize`. -/
def getDataExtentsSize (self : TileLayer) : Nat := self._dataExtents.length

/-- Body of the loop of `getDataExtentsUnion`: grow the rectangle, then fold in the levels
of the extent that are set. -/
def unionStep (env : Env) (u de : DataExtent) : DataExtent :=
  let u1 : DataExtent :=
    { u with toGeoExtent := env.expandToInclude u.toGeoExtent de.toGeoExtent }
  let u2 : DataExtent :=
    if de.minLevel.has_value then
      { u1 with minLevel := optional.assign (min u1.minLevel.value de.minLevel.value) }
    else u1
  if de.maxLevel.has_value then
    { u2 with maxLevel := optional.assign (max u2.maxLevel.value de.maxLevel.value) }
  else u2

/-- The union computed inside `getDataExtentsUnion` from a non-empty extent list: start
from the first extent, fold the others in, and "if upsampling is enabled include the MDL in
the union". -/
def computeUnion (env : Env) (self : TileLayer) (first : DataExtent)
    (rest : List DataExtent) : DataExtent :=
  let u := rest.foldl (unionStep env) first
  if self._maxDataLevel.has_value && self._upsample.value then
    { u with maxLevel := optional.assign (max u.maxLevel.value self._maxDataLevel.value) }
  else u

/-- Embedding of `TileLayer::getDataExtentsUnion`: returns the union and the layer with the memoised
union. -/
def getDataExtentsUnion (env : Env) (self : TileLayer) : DataExtent × TileLayer :=
  if !self._dataExtentsUnion.valid && decide (getDataExtentsSize self > 0) then
    match self._dataExtents with
    | [] => (self._dataExtentsUnion, self)
    | first :: rest =>
      let u := computeUnion env self first rest
      (u, { self with _dataExtentsUnion := u })
  else
    (self._dataExtentsUnion, self)

/-- The rectangle `(a_min, a_max)` of an extent. -/
def rectOf (e : GeoExtent) : Rect := ⟨e.xMin, e.yMin, e.xMax, e.yMax⟩

/-- The construction `DataExtent new_de(half)` followed by the copy of the source's `minLevel` and
`maxLevel`. -/
def halfExtent (half : GeoExtent) (de : DataExtent) : DataExtent :=
  { toGeoExtent := half, minLevel := de.minLevel, maxLevel := de.maxLevel }

/-- Body of the index-building loop of `getBestAvailableTileKey` for one data extent. -/
def indexInsertExtent (env : Env) (self : TileLayer) (index : DataExtentsIndex)
    (de : DataExtent) : DataExtentsIndex :=
  let extentInLayerSRS := env.clampAndTransformExtent self._profile de.toGeoExtent
  if env.isGeographic extentInLayerSRS.srs && env.crossesAntimeridian extentInLayerSRS then
    let west := (env.splitAcrossAntimeridian extentInLayerSRS).1
    let east := (env.splitAcrossAntimeridian extentInLayerSRS).2
    let index1 :=
      if west.valid then index.Insert (rectOf west) (halfExtent west de) else index
    if east.valid then index1.Insert (rectOf east) (halfExtent east de) else index1
  else
    index.Insert (rectOf extentInLayerSRS) de

/-- The index built from the layer's data extents. -/
def buildIndex (env : Env) (self : TileLayer) : DataExtentsIndex :=
  self._dataExtents.foldl (indexInsertExtent env self) ⟨[]⟩

/-- The block "build the index if needed": the index in use and the layer holding it. -/
def ensureIndex (env : Env) (self : TileLayer) : DataExtentsIndex × TileLayer :=
  match self._dataExtentsIndex with
  | some index => (index, self)
  | none =>
    let index := buildIndex env self
    (index, { self with _dataExtentsIndex := some index })

/-! ## The R-tree search and its visitor -/

/-- The locals captured by reference by the search visitor. -/
structure SearchState where
  bestKey : TileKey
  intersects : Bool
  highestLOD : Nat
deriving DecidableEq

/-- What `getBestAvailableTileKey` assigns to `bestKey` on an accepting hit. -/
def mdlLimitedKey (key : TileKey) (localLOD MDL : Nat) : TileKey :=
  if localLOD > MDL then key.createAncestorKey MDL else key

/-- The lambda passed to `Search`. Returns the visitor's result (`true` to continue,
`false` to stop) and the updated captured locals. -/
def visitor (key : TileKey) (localLOD MDL : Nat) (de : DataExtent) (s : SearchState) :
    Bool × SearchState :=
  if !de.minLevel.has_value || decide (localLOD ≥ de.minLevel.value) then
    let s1 := { s with intersects := true }
    if !de.maxLevel.has_value then
      (false, { s1 with bestKey := mdlLimitedKey key localLOD MDL })
    else if localLOD ≤ de.maxLevel.value then
      (false, { s1 with bestKey := mdlLimitedKey key localLOD MDL })
    else if de.maxLevel.value > s1.highestLOD then
      (true, { s1 with highestLOD := de.maxLevel.value })
    else
      (true, s1)
  else
    (true, s)

/-- Run the visitor over the payloads in visiting order until it asks to stop. -/
def visitAll (key : TileKey) (localLOD MDL : Nat) :
    List DataExtent → SearchState → SearchState
  | [], s => s
  | de :: rest, s =>
    match visitor key localLOD MDL de s with
    | (true, s1) => visitAll key localLOD MDL rest s1
    | (false, s1) => s1

/-- Modelled from the spec: `Search(min[2], max[2], visitor)` "invoke `visitor(payload)` for
every entry whose rectangle intersects the query"; this is the sequence of payloads the
search offers to the visitor, in the tree's traversal order. -/
def searchHits (env : Env) (index : DataExtentsIndex) (query : Rect) : List DataExtent :=
  ((env.visitOrder index.entries).filter (fun e => e.1.Overlap query)).map (fun e => e.2)

/-- The final part of `getBestAvailableTileKey`, after the search: the key to return. -/
def afterSearch (self : TileLayer) (key : TileKey) (considerUpsampling : Bool)
    (s : SearchState) : TileKey :=
  let MDL := self._maxDataLevel.value
  if s.bestKey.valid then
    s.bestKey
  else if s.intersects then
    if considerUpsampling && (self._upsample.value == true) then
      let maxAvailableLOD := max s.highestLOD MDL
      key.createAncestorKey (min key.levelOfDetail maxAvailableLOD)
    else
      let maxAvailableLOD := min s.highestLOD MDL
      key.createAncestorKey (min key.levelOfDetail maxAvailableLOD)
  else
    TileKey.INVALID

/-- Embedding of `TileLayer::getBestAvailableTileKey`: the returned key and the layer with the caches
the call has filled. -/
def getBestAvailableTileKey (env : Env) (self : TileLayer) (key : TileKey)
    (considerUpsampling : Bool) : TileKey × TileLayer :=
  if !key.valid then (TileKey.INVALID, self)
  else
    let MDL := self._maxDataLevel.value
    let localLOD := localLOD env self key
    if levelLimitsReject self localLOD then (TileKey.INVALID, self)
    else if resolutionLimitsReject env self key then (TileKey.INVALID, self)
    else if getDataExtentsSize self == 0 then
      (if localLOD > MDL then key.createAncestorKey MDL else key, self)
    else
      let union := getDataExtentsUnion env self
      if !env.intersects union.1.toGeoExtent (env.extent key) then
        (TileKey.INVALID, union.2)
      else
        let indexed := ensureIndex env union.2
        let keyExtentInLayerSRS :=
          env.clampAndTransformExtent indexed.2._profile (env.extent key)
        let hits := searchHits env indexed.1 (rectOf keyExtentInLayerSRS)
        let s := visitAll key localLOD MDL hits ⟨TileKey.INVALID, false, 0⟩
        (afterSearch indexed.2 key considerUpsampling s, indexed.2)

/-- Embedding of `TileLayer::mayHaveData`: the verdict and the layer with the caches the call has
filled. -/
def mayHaveData (env : Env) (self : TileLayer) (key : TileKey) : Bool × TileLayer :=
  let best := getBestAvailableTileKey env self key true
  (decide (key = best.1), best.2)

end TileLayer

/-! ## A concrete world

A small concrete instance of the collaborators, used to run the embedded functions on
explicit inputs: profiles tile one plane of `2^120 × 2^119` units, and coordinates are
whole numbers of units. -/

namespace Sample

/-- Number of tiles across the world at a level of a profile. -/
def tilesAcross (p : Profile) (lod : Nat) : Nat := p.numTilesWideAtLod0 <<< lod

/-- Number of tiles down the world at a level of a profile. -/
def tilesDown (p : Profile) (lod : Nat) : Nat := p.numTilesHighAtLod0 <<< lod

/-- Modelled from the spec: `getEquivalentLOD`, "the LOD in this profile whose tile
resolution most closely matches the other profile's tile resolution at `otherLod`", "by
matching horizontal tile span": the level itself for one and the same profile, otherwise the
first level at which this profile has at least as many tiles across the world as the other
profile has at `rhsLOD` (their spans are then equal when the root tile counts differ by a
power of two). -/
def getEquivalentLOD (self rhs : Profile) (rhsLOD : Nat) : Nat :=
  if self = rhs then rhsLOD
  else
    ((List.range 64).find? (fun l => decide (tilesAcross rhs rhsLOD ≤ tilesAcross self l))).getD 0

/-- Width of the sample world, in units. -/
def worldWidth : Nat := 2 ^ 120

/-- Height of the sample world, in units. -/
def worldHeight : Nat := 2 ^ 119

/-- The SRS shared by the sample profiles. -/
def planeSRS : SRS := ⟨"plane"⟩

/-- Modelled from the spec: `key.extent()`, the "georeferenced `extent()` rectangle in its
profile's SRS": the tile's cell in the regular grid of its level. -/
def extent (key : TileKey) : GeoExtent :=
  let w := worldWidth / tilesAcross key.profile key.levelOfDetail
  let h := worldHeight / tilesDown key.profile key.levelOfDetail
  { valid := key.profile.valid
    srs := key.profile.srs
    xMin := ((key.tileX * w : Nat) : ℚ)
    yMin := ((key.tileY * h : Nat) : ℚ)
    xMax := (((key.tileX + 1) * w : Nat) : ℚ)
    yMax := (((key.tileY + 1) * h : Nat) : ℚ) }

/-- Plain rectangle intersection of two valid extents (open overlap). -/
def intersects (a b : GeoExtent) : Bool :=
  a.valid && b.valid &&
    decide (a.xMin < b.xMax) && decide (b.xMin < a.xMax) &&
    decide (a.yMin < b.yMax) && decide (b.yMin < a.yMax)

/-- Bounding rectangle of two extents. -/
def expandToInclude (a b : GeoExtent) : GeoExtent :=
  { a with
    xMin := min a.xMin b.xMin
    yMin := min a.yMin b.yMin
    xMax := max a.xMax b.xMax
    yMax := max a.yMax b.yMax }

/-- The sample collaborators: one SRS and one unit, so reprojection and unit conversion are
the identity, nothing crosses an antimeridian, the resolution of a tile is its width in
units rounded down to a whole number of tile sizes, and the R-tree visits its entries in
insertion order. -/
def env : Env where
  getEquivalentLOD := getEquivalentLOD
  extent := extent
  resKey := fun e tileSize => (((e.xMax.floor - e.xMin.floor).toNat / tileSize : Nat) : ℚ)
  convertTo := fun _ _ v => v
  intersects := intersects
  expandToInclude := expandToInclude
  clampAndTransformExtent := fun _ e => e
  isGeographic := fun _ => false
  crossesAntimeridian := fun _ => false
  splitAcrossAntimeridian := fun e => (e, e)
  visitOrder := fun l => l

/-- A profile with 2 × 1 root tiles. -/
def profile21 : Profile := ⟨true, planeSRS, 2, 1⟩

/-- A profile with 8 × 4 root tiles over the same world. -/
def profile84 : Profile := ⟨true, planeSRS, 8, 4⟩

/-- An extent that is not valid, as `GeoExtent::INVALID`. -/
def invalidExtent : DataExtent :=
  { valid := false, srs := ⟨""⟩, xMin := 0, yMin := 0, xMax := 0, yMax := 0,
    minLevel := ⟨false, 0⟩, maxLevel := ⟨false, 0⟩ }

/-- A layer over `profile21` as `construct` leaves it for an empty configuration: no
option set, no data extent, no cached union or index. The unset options hold the values
`0`, `23`, `99`, `256` and `false`. -/
def layer : TileLayer where
  _minLevel := ⟨false, 0⟩
  _maxLevel := ⟨false, 23⟩
  _minResolution := ⟨false, 0⟩
  _maxResolution := ⟨false, 0⟩
  _maxDataLevel := ⟨false, 99⟩
  _tileSize := ⟨false, 256⟩
  _upsample := ⟨false, false⟩
  _profile := profile21
  _reopenRequired := false
  _writingRequested := false
  _dataExtents := []
  _dataExtentsUnion := invalidExtent
  _dataExtentsIndex := none

/-- A data extent covering the whole sample world, without level bounds. -/
def worldExtent : DataExtent :=
  { valid := true, srs := planeSRS,
    xMin := 0, yMin := 0, xMax := ((2 ^ 120 : Nat) : ℚ), yMax := ((2 ^ 119 : Nat) : ℚ),
    minLevel := ⟨false, 0⟩, maxLevel := ⟨false, 0⟩ }

/-- A data extent over one quarter of the sample world (the half of larger `x`, the half of
smaller `y`) whose data stops at level 8. -/
def quarterExtent : DataExtent :=
  { valid := true, srs := planeSRS,
    xMin := ((2 ^ 119 : Nat) : ℚ), yMin := 0,
    xMax := ((2 ^ 120 : Nat) : ℚ), yMax := ((2 ^ 118 : Nat) : ℚ),
    minLevel := ⟨false, 0⟩, maxLevel := ⟨true, 8⟩ }

end Sample

end Rocky

/-! ## Vocabulary of the availability claims -/

namespace Rocky

namespace TileLayer

/-- The visitor's first test on a hit: the extent's `minLevel` is absent or not above the
local LOD. -/
def passesMinLevel (localLOD : Nat) (de : DataExtent) : Bool :=
  !de.minLevel.has_value || decide (de.minLevel.value ≤ localLOD)

/-- An accepting hit: it passes the `minLevel` test and its `maxLevel` is absent or not
below the local LOD. -/
def acceptsLevel (localLOD : Nat) (de : DataExtent) : Bool :=
  passesMinLevel localLOD de &&
    (!de.maxLevel.has_value || decide (localLOD ≤ de.maxLevel.value))

/-- The indexed data extents hit by the key's rectangle: the payloads the R-tree search of
`getBestAvailableTileKey` offers to its visitor, from the index the call uses (the cached
one, or the one it builds). -/
def hitExtents (env : Env) (self : TileLayer) (key : TileKey) : List DataExtent :=
  let indexed := ensureIndex env (getDataExtentsUnion env self).2
  searchHits env indexed.1
    (rectOf (env.clampAndTransformExtent indexed.2._profile (env.extent key)))

/-- The value of `highestLOD` after a search without accepting hit: the largest `maxLevel`
among the hits that pass the `minLevel` test, starting from `init`. -/
def highestMaxLevel (localLOD : Nat) (hits : List DataExtent) (init : Nat) : Nat :=
  (hits.filter (passesMinLevel localLOD)).foldl (fun h de => max h de.maxLevel.value) init

/-- Two layers with the same configuration and the same data-extent list; their caches
may differ. -/
structure SameConfig (a b : TileLayer) : Prop where
  minLevel : a._minLevel = b._minLevel
  maxLevel : a._maxLevel = b._maxLevel
  minResolution : a._minResolution = b._minResolution
  maxResolution : a._maxResolution = b._maxResolution
  maxDataLevel : a._maxDataLevel = b._maxDataLevel
  tileSize : a._tileSize = b._tileSize
  upsample : a._upsample = b._upsample
  profile : a._profile = b._profile
  dataExtents : a._dataExtents = b._dataExtents

/-- The index a call of `getBestAvailableTileKey` searches: the cached one, or the one it
builds. -/
def indexInUse (env : Env) (self : TileLayer) : DataExtentsIndex :=
  (ensureIndex env (getDataExtentsUnion env self).2).1

/-- The layer `t` is the layer `s` after availability queries have filled caches: same
configuration and extents, the cached union of `s` or the union `s` computes, the cached
index of `s` or the index `s` uses. -/
def CachesFilled (env : Env) (s t : TileLayer) : Prop :=
  SameConfig t s ∧
    (t._dataExtentsUnion = s._dataExtentsUnion ∨
      t._dataExtentsUnion = (getDataExtentsUnion env s).1) ∧
    (t._dataExtentsIndex = s._dataExtentsIndex ∨
      t._dataExtentsIndex = some (indexInUse env s))

/-- Upsampling is in effect for a call: `considerUpsampling && (upsample() == true)`. -/
def upsampling (self : TileLayer) (considerUpsampling : Bool) : Bool :=
  considerUpsampling && (self._upsample.value == true)

/-- The deepest level the fallback after a search without accepting hit can return for a
key of local LOD `localLOD`: `max(highestLOD, MDL)` when upsampling is in effect,
`min(highestLOD, MDL)` otherwise, `highestLOD` being the largest `maxLevel` among the hits
that pass the `minLevel` test. -/
def maxAvailableLOD (self : TileLayer) (considerUpsampling : Bool) (localLOD : Nat)
    (hits : List DataExtent) : Nat :=
  if upsampling self considerUpsampling = true then
    max (highestMaxLevel localLOD hits 0) self._maxDataLevel.value
  else
    min (highestMaxLevel localLOD hits 0) self._maxDataLevel.value

end TileLayer

end Rocky

namespace Rocky

/-! ## Geometry keys (rocky_vsg `GeometryPool.h`) -/

/-- Embedding of `struct GeometryKey`: `int lod`, `int tileY`, `bool patch`,
`unsigned size`. The operators only compare the fields, so the integers are unbounded. -/
structure GeometryKey where
  lod : Int
  tileY : Int
  patch : Bool
  size : Nat
deriving DecidableEq

namespace GeometryKey

/-- Embedding of `GeometryKey::operator <`. -/
def lt (self rhs : GeometryKey) : Bool :=
  if self.lod < rhs.lod then true
  else if self.lod > rhs.lod then false
  else if self.tileY < rhs.tileY then true
  else if self.tileY > rhs.tileY then false
  else if self.size < rhs.size then true
  else if self.size > rhs.size then false
  else if self.patch == false && rhs.patch == true then true
  else false

/-- Embedding of `GeometryKey::operator ==`. -/
def eq (self rhs : GeometryKey) : Bool :=
  decide (self.lod = rhs.lod) && decide (self.tileY = rhs.tileY) &&
    decide (self.size = rhs.size) && decide (self.patch = rhs.patch)

/-- Embedding of `GeometryKey::operator !=`. -/
def ne (self rhs : GeometryKey) : Bool :=
  decide (self.lod ≠ rhs.lod) || decide (self.tileY ≠ rhs.tileY) ||
    decide (self.size ≠ rhs.size) || decide (self.patch ≠ rhs.patch)

/-- The lexicographic strict order on `(lod, tileY, size, patch)` with `false < true`, as
the claim words it. -/
def lexLt (a b : GeometryKey) : Prop :=
  a.lod < b.lod ∨ (a.lod = b.lod ∧
    (a.tileY < b.tileY ∨ (a.tileY = b.tileY ∧
      (a.size < b.size ∨ (a.size = b.size ∧ a.patch = false ∧ b.patch = true)))))

end GeometryKey

end Rocky

namespace Rocky

/-- Modelled from the spec: `GeoExtent::INVALID`, the extent that is not valid. -/
def GeoExtent.INVALID : GeoExtent :=
  { valid := false, srs := ⟨""⟩, xMin := 0, yMin := 0, xMax := 0, yMax := 0 }

/-- Modelled from the spec: the constructor `DataExtent(const GeoExtent&)`, a data extent
over the rectangle with neither `minLevel` nor `maxLevel` set; a default-constructed
`optional<unsigned>` holds `0`. -/
def DataExtent.ofGeoExtent (e : GeoExtent) : DataExtent :=
  { toGeoExtent := e, minLevel := ⟨false, 0⟩, maxLevel := ⟨false, 0⟩ }

namespace TileLayer

/-! ## Configuration setters and data-extent mutators -/

/-- Embedding of `TileLayer::setMinLevel`. -/
def setMinLevel (self : TileLayer) (value : Nat) : TileLayer :=
  { self with _minLevel := optional.assign value, _reopenRequired := true }

/-- Embedding of `TileLayer::setMaxLevel`. -/
def setMaxLevel (self : TileLayer) (value : Nat) : TileLayer :=
  { self with _maxLevel := optional.assign value, _reopenRequired := true }

/-- Embedding of `TileLayer::setMinResolution`. -/
def setMinResolution (self : TileLayer) (value : ℚ) : TileLayer :=
  { self with _minResolution := optional.assign value, _reopenRequired := true }

/-- Embedding of `TileLayer::setMaxResolution`. -/
def setMaxResolution (self : TileLayer) (value : ℚ) : TileLayer :=
  { self with _maxResolution := optional.assign value, _reopenRequired := true }

/-- Embedding of `TileLayer::setMaxDataLevel`. -/
def setMaxDataLevel (self : TileLayer) (value : Nat) : TileLayer :=
  { self with _maxDataLevel := optional.assign value, _reopenRequired := true }

/-- Embedding of `TileLayer::setTileSize`. -/
def setTileSize (self : TileLayer) (value : Nat) : TileLayer :=
  { self with _tileSize := optional.assign value, _reopenRequired := true }

/-- Embedding of `TileLayer::setUpsample`, whose body is `_upsample = true;`: the argument
is not read and `_reopenRequired` is not written. -/
def setUpsample (self : TileLayer) (_value : Bool) : TileLayer :=
  { self with _upsample := optional.assign true }

/-- Embedding of `TileLayer::setProfile`: `_profile = profile` followed by
`applyProfileOverrides(_profile)`, which is outside `TileLayer.cpp`; `overridden` is the
profile it leaves in `_profile`. -/
def setProfile (self : TileLayer) (_profile overridden : Profile) : TileLayer :=
  { self with _profile := overridden }

/-- Embedding of `TileLayer::dirtyDataExtents`. -/
def dirtyDataExtents (self : TileLayer) : TileLayer :=
  { self with
    _dataExtentsUnion := DataExtent.ofGeoExtent GeoExtent.INVALID
    _dataExtentsIndex := none }

/-- Embedding of `TileLayer::setDataExtents`. -/
def setDataExtents (self : TileLayer) (dataExtents : List DataExtent) : TileLayer :=
  dirtyDataExtents { self with _dataExtents := dataExtents }

/-- Embedding of `TileLayer::addDataExtent`. -/
def addDataExtent (self : TileLayer) (dataExtent : DataExtent) : TileLayer :=
  dirtyDataExtents { self with _dataExtents := self._dataExtents ++ [dataExtent] }

end TileLayer

end Rocky

namespace Rocky

namespace TileLayer

/-! ## Vocabulary of the union and index claims -/

/-- The `minLevel` values that are present among the extents, in list order. -/
def presentMinLevels (extents : List DataExtent) : List Nat :=
  (extents.filter (fun de => de.minLevel.has_value)).map (fun de => de.minLevel.value)

/-- The `maxLevel` values that are present among the extents, in list order. -/
def presentMaxLevels (extents : List DataExtent) : List Nat :=
  (extents.filter (fun de => de.maxLevel.has_value)).map (fun de => de.maxLevel.value)

/-- The step of the loop of `getDataExtentsUnion` on the `minLevel` of the union alone. -/
def minLevelStep (acc : optional Nat) (de : DataExtent) : optional Nat :=
  if de.minLevel.has_value then optional.assign (min acc.value de.minLevel.value) else acc

/-- The states of a layer: a layer as constructed, with no cached index, followed by any
sequence of extent mutations, availability queries and configuration setters. -/
inductive Reachable (env : Env) : TileLayer → Prop
  | construct (s : TileLayer) (h : s._dataExtentsIndex = none) : Reachable env s
  | setDataExtents {s : TileLayer} (l : List DataExtent) :
      Reachable env s → Reachable env (setDataExtents s l)
  | addDataExtent {s : TileLayer} (e : DataExtent) :
      Reachable env s → Reachable env (addDataExtent s e)
  | getDataExtentsUnion {s : TileLayer} :
      Reachable env s → Reachable env (getDataExtentsUnion env s).2
  | getBestAvailableTileKey {s : TileLayer} (key : TileKey) (u : Bool) :
      Reachable env s → Reachable env (getBestAvailableTileKey env s key u).2
  | mayHaveData {s : TileLayer} (key : TileKey) :
      Reachable env s → Reachable env (mayHaveData env s key).2
  | setMinLevel {s : TileLayer} (v : Nat) : Reachable env s → Reachable env (setMinLevel s v)
  | setMaxLevel {s : TileLayer} (v : Nat) : Reachable env s → Reachable env (setMaxLevel s v)
  | setMinResolution {s : TileLayer} (v : ℚ) :
      Reachable env s → Reachable env (setMinResolution s v)
  | setMaxResolution {s : TileLayer} (v : ℚ) :
      Reachable env s → Reachable env (setMaxResolution s v)
  | setMaxDataLevel {s : TileLayer} (v : Nat) :
      Reachable env s → Reachable env (setMaxDataLevel s v)
  | setTileSize {s : TileLayer} (v : Nat) : Reachable env s → Reachable env (setTileSize s v)
  | setUpsample {s : TileLayer} (v : Bool) : Reachable env s → Reachable env (setUpsample s v)
  | setProfile {s : TileLayer} (p overridden : Profile) :
      Reachable env s → Reachable env (setProfile s p overridden)

/-- A cached index, when present, was built from the current extent list (in the profile
the layer had when it was built). -/
def IndexCurrent (env : Env) (s : TileLayer) : Prop :=
  ∀ index, s._dataExtentsIndex = some index →
    ∃ p : Profile, index = buildIndex env { s with _profile := p }

/-- The index entries of one source extent as the claim words them: one entry for the
transformed extent when it is not a geographic antimeridian-crossing extent, otherwise one
entry per valid west and east half, each carrying the levels of the source extent. -/
def specIndexEntries (env : Env) (profile : Profile) (de : DataExtent) :
    List (Rect × DataExtent) :=
  let transformed := env.clampAndTransformExtent profile de.toGeoExtent
  if env.isGeographic transformed.srs && env.crossesAntimeridian transformed then
    let west := (env.splitAcrossAntimeridian transformed).1
    let east := (env.splitAcrossAntimeridian transformed).2
    (if west.valid then
        [(rectOf west, { toGeoExtent := west, minLevel := de.minLevel,
                         maxLevel := de.maxLevel })]
      else []) ++
    (if east.valid then
        [(rectOf east, { toGeoExtent := east, minLevel := de.minLevel,
                         maxLevel := de.maxLevel })]
      else [])
  else
    [(rectOf transformed, de)]

end TileLayer

end Rocky

namespace Rocky

namespace Sample

/-- Modelled from the spec: a geographic variant of the sample collaborators, in degrees.
An extent "crosses the antimeridian" when its `xMax` exceeds 180, and
`splitAcrossAntimeridian` yields the part up to 180 and the part from -180 with the excess
wrapped by 360, "each possibly invalid if the input did not span that side". -/
def geographicEnv : Env :=
  { env with
    isGeographic := fun _ => true
    crossesAntimeridian := fun e => decide (e.xMax > 180)
    splitAcrossAntimeridian := fun e =>
      ({ e with xMax := 180, valid := e.valid && decide (e.xMin < 180) },
       { e with xMin := -180, xMax := e.xMax - 360,
                valid := e.valid && decide (e.xMax > 180) }) }

/-- The data extent of scenario S4: from 170 to 190 degrees of longitude, with `minLevel` 2
and no `maxLevel`. -/
def wrappedExtent : DataExtent :=
  { valid := true, srs := ⟨"wgs84"⟩, xMin := 170, yMin := -10, xMax := 190, yMax := 10,
    minLevel := ⟨true, 2⟩, maxLevel := ⟨false, 0⟩ }

end Sample

end Rocky

namespace Rocky

/-! ## Config and cache-bin metadata (rocky `TileLayer.cpp`, lines 21-127) -/

/-- Modelled from the spec: Config, "a tree of string-keyed name/value nodes": a key, a
textual value and the child nodes. -/
inductive Config where
  | mk (key : String) (value : String) (children : List Config)

namespace Config

/-- The key of a node. -/
def key : Config → String
  | mk k _ _ => k

/-- Modelled from the spec: `value()`, the node's own value. -/
def value : Config → String
  | mk _ v _ => v

/-- Modelled from the spec: `children()`. -/
def children : Config → List Config
  | mk _ _ c => c

/-- Modelled from the spec: `empty()`, a node without key, value and children. -/
def empty (conf : Config) : Bool :=
  conf.key.isEmpty && conf.value.isEmpty && conf.children.isEmpty

/-- Modelled from the spec: `child_ptr(name)`, the first child with that key, if any
(`child(name)` without the empty fallback). -/
def child_ptr (conf : Config) (name : String) : Option Config :=
  conf.children.find? (fun c => c.key == name)

/-- Modelled from the spec: `hasChild(name)`. -/
def hasChild (conf : Config) (name : String) : Bool :=
  (conf.child_ptr name).isSome

/-- Modelled from the spec: `value(name)`, the value of the child with that key, empty when
there is none. -/
def valueOf (conf : Config) (name : String) : String :=
  match conf.child_ptr name with
  | some c => c.value
  | none => ""

/-- Modelled from the spec: `hasValue(name)`, the child with that key has a non-empty
value. -/
def hasValue (conf : Config) (name : String) : Bool :=
  !(conf.valueOf name).isEmpty

/-- Modelled from the spec: `remove(name)`, dropping the children with that key. -/
def remove (conf : Config) (name : String) : Config :=
  mk conf.key conf.value (conf.children.filter (fun c => !(c.key == name)))

/-- Modelled from the spec: `add(name, sub)`, appending `sub` as a child keyed `name`. -/
def add (conf : Config) (name : String) (sub : Config) : Config :=
  mk conf.key conf.value (conf.children ++ [mk name sub.value sub.children])

/-- Modelled from the spec: `set(name, value)` for a textual value: the child keyed `name`
is replaced by one holding the value. -/
def setString (conf : Config) (name : String) (v : String) : Config :=
  (conf.remove name).add name (mk name v [])

/-- Modelled from the spec: `set(name, opt)` for an optional textual value: the child keyed
`name` is removed, and written again only when the optional is set. -/
def setOptionalString (conf : Config) (name : String) (opt : optional String) : Config :=
  if opt.has_value then conf.setString name opt.value else conf.remove name

/-- Modelled from the spec: `get(name, out)` for an optional textual value: `out` is
assigned when the child keyed `name` has a value, and left alone otherwise. -/
def getOptionalString (conf : Config) (name : String) (out : optional String) :
    optional String :=
  if conf.hasValue name then optional.assign (conf.valueOf name) else out

/-- Modelled from the spec: `set(name, opt)` for an optional subtree. -/
def setOptionalConfig (conf : Config) (name : String) (opt : optional Config) : Config :=
  if opt.has_value then (conf.remove name).add name opt.value else conf.remove name

/-- Modelled from the spec: `get(name, out)` for an optional subtree: `out` is assigned the
child keyed `name` when there is one. -/
def getOptionalConfig (conf : Config) (name : String) (out : optional Config) :
    optional Config :=
  match conf.child_ptr name with
  | some c => optional.assign c
  | none => out

end Config

/-- The conversions between numbers and the textual values of a `Config`, which are outside
`TileLayer.cpp`. The parsers take the fallback returned for text they cannot read. -/
structure Codec where
  /-- The text `set` writes for an `unsigned`. -/
  unsignedToString : Nat → String
  /-- The parser `as<unsigned>(text, fallback)`. -/
  stringToUnsigned : String → Nat → Nat
  /-- The text `set` writes for a `double`. -/
  doubleToString : ℚ → String
  /-- The parser `as<float>(text, fallback)`, its result widened to `double`: the parser
  behind `value(name, 0.0f)`. -/
  stringToFloat : String → ℚ → ℚ
  /-- The validity of `GeoExtent(srs, xmin, ymin, xmax, ymax)`. -/
  extentValid : SRS → ℚ → ℚ → ℚ → ℚ → Bool

namespace Config

/-- Modelled from the spec: `set(name, opt)` for an `optional<unsigned>`. -/
def setOptionalUnsigned (codec : Codec) (conf : Config) (name : String)
    (opt : optional Nat) : Config :=
  if opt.has_value then conf.setString name (codec.unsignedToString opt.value)
  else conf.remove name

/-- Modelled from the spec: `get(name, out)` for an `optional<unsigned>`: `out` is assigned
the parsed value, with its default as fallback, when the child keyed `name` has a value. -/
def getOptionalUnsigned (codec : Codec) (conf : Config) (name : String)
    (out : optional Nat) : optional Nat :=
  if conf.hasValue name then
    optional.assign (codec.stringToUnsigned (conf.valueOf name) out.value)
  else out

/-- Modelled from the spec: `value(name, 0.0f)`: the value of the child keyed `name` read
as a `float`, the type of the fallback. -/
def valueFloat (codec : Codec) (conf : Config) (name : String) (fallback : ℚ) : ℚ :=
  codec.stringToFloat (conf.valueOf name) fallback

end Config

/-- The members of `TileLayer::CacheBinMetadata`. The profiles are kept as the Config
subtrees they are read from. -/
structure CacheBinMetadata where
  _valid : Bool
  _cacheBinId : optional String
  _sourceName : optional String
  _sourceDriver : optional String
  _sourceTileSize : optional Nat
  _sourceProfile : optional Config
  _cacheProfile : optional Config
  _cacheCreateTime : optional Nat
  _dataExtents : List DataExtent

namespace CacheBinMetadata

/-- Body of the loop of the `Config` constructor: the data extent read from one child of
`extents`. -/
def readExtent (codec : Codec) (i : Config) : DataExtent :=
  let srsString := i.valueOf "srs"
  let xmin := i.valueFloat codec "xmin" 0
  let ymin := i.valueFloat codec "ymin" 0
  let xmax := i.valueFloat codec "xmax" 0
  let ymax := i.valueFloat codec "ymax" 0
  let minLevel := i.getOptionalUnsigned codec "minlevel" ⟨false, 0⟩
  let maxLevel := i.getOptionalUnsigned codec "maxlevel" ⟨false, 0⟩
  let srs : SRS := ⟨srsString⟩
  let e := DataExtent.ofGeoExtent
    { valid := codec.extentValid srs xmin ymin xmax ymax, srs := srs,
      xMin := xmin, yMin := ymin, xMax := xmax, yMax := ymax }
  let e1 : DataExtent :=
    if minLevel.has_value then { e with minLevel := optional.assign minLevel.value } else e
  if maxLevel.has_value then { e1 with maxLevel := optional.assign maxLevel.value } else e1

/-- Embedding of `CacheBinMetadata::CacheBinMetadata(const Config&)`; the members start as
default-constructed optionals. -/
def ofConfig (codec : Codec) (conf : Config) : CacheBinMetadata :=
  let valid0 := !conf.empty
  let dataExtents :=
    match conf.child_ptr "extents" with
    | some extentsRoot => extentsRoot.children.map (readExtent codec)
    | none => []
  let valid1 :=
    if valid0 then
      if !conf.hasValue "source_tile_size" || !conf.hasChild "source_profile" ||
          !conf.hasChild "cache_profile" then
        false
      else valid0
    else valid0
  { _valid := valid1
    _cacheBinId := conf.getOptionalString "cachebin_id" ⟨false, ""⟩
    _sourceName := conf.getOptionalString "source_name" ⟨false, ""⟩
    _sourceDriver := conf.getOptionalString "source_driver" ⟨false, ""⟩
    _sourceTileSize := conf.getOptionalUnsigned codec "source_tile_size" ⟨false, 0⟩
    _sourceProfile := conf.getOptionalConfig "source_profile" ⟨false, Config.mk "" "" []⟩
    _cacheProfile := conf.getOptionalConfig "cache_profile" ⟨false, Config.mk "" "" []⟩
    _cacheCreateTime := conf.getOptionalUnsigned codec "cache_create_time" ⟨false, 0⟩
    _dataExtents := dataExtents }

/-- Body of the loop of `getConfig`: the Config written for one data extent. -/
def writeExtent (codec : Codec) (i : DataExtent) : Config :=
  let extent := Config.mk "" "" []
  let extent := extent.setString "srs" i.srs.definition
  let extent := extent.setString "xmin" (codec.doubleToString i.xMin)
  let extent := extent.setString "ymin" (codec.doubleToString i.yMin)
  let extent := extent.setString "xmax" (codec.doubleToString i.xMax)
  let extent := extent.setString "ymax" (codec.doubleToString i.yMax)
  let extent := extent.setOptionalUnsigned codec "minlevel" i.minLevel
  extent.setOptionalUnsigned codec "maxlevel" i.maxLevel

/-- Embedding of `CacheBinMetadata::getConfig`. -/
def getConfig (codec : Codec) (self : CacheBinMetadata) : Config :=
  let conf := Config.mk "osgearth_terrainlayer_cachebin" "" []
  let conf := conf.setOptionalString "cachebin_id" self._cacheBinId
  let conf := conf.setOptionalString "source_name" self._sourceName
  let conf := conf.setOptionalString "source_driver" self._sourceDriver
  let conf := conf.setOptionalUnsigned codec "source_tile_size" self._sourceTileSize
  let conf := conf.setOptionalConfig "source_profile" self._sourceProfile
  let conf := conf.setOptionalConfig "cache_profile" self._cacheProfile
  let conf := conf.setOptionalUnsigned codec "cache_create_time" self._cacheCreateTime
  if !self._dataExtents.isEmpty then
    let extents := self._dataExtents.foldl
      (fun extents i => extents.add "extent" (writeExtent codec i)) (Config.mk "" "" [])
    conf.add "extents" extents
  else conf

end CacheBinMetadata

end Rocky

namespace Rocky

namespace Sample

/-- Number of binary digits of a number below `2 ^ fuel`. -/
def bitLength : Nat → Nat → Nat
  | 0, _ => 0
  | fuel + 1, n => if n = 0 then 0 else 1 + bitLength fuel (n / 2)

/-- The nearest number with at most 24 significant binary digits, ties to the even one:
what a whole number below `2 ^ 128` becomes when it is stored in a `float`. -/
def roundToFloat (n : Nat) : Nat :=
  let e := bitLength 128 n - 24
  if e = 0 then n
  else
    let q := n >>> e
    let r := n % 2 ^ e
    let half := 2 ^ (e - 1)
    (if half < r ∨ (r = half ∧ q % 2 = 1) then q + 1 else q) <<< e

/-- Whether a text is a non-empty string of decimal digits. -/
def isDigits (s : String) : Bool :=
  !s.data.isEmpty && s.data.all (fun c => decide ('0' ≤ c) && decide (c ≤ '9'))

/-- The number written by a string of decimal digits. -/
def readDigits (s : String) : Nat :=
  s.data.foldl (fun acc c => acc * 10 + (c.toNat - 48)) 0

/-- A sample of the conversions, for whole non-negative numbers written in decimal: an
`unsigned` is read back exactly, and a coordinate is read back as the `float` nearest to
the number written. Every extent counts as valid. -/
def codec : Codec where
  unsignedToString := fun n => Nat.repr n
  stringToUnsigned := fun s fallback => if isDigits s then readDigits s else fallback
  doubleToString := fun x => Nat.repr x.floor.toNat
  stringToFloat := fun s fallback =>
    if isDigits s then ((roundToFloat (readDigits s) : Nat) : ℚ) else fallback
  extentValid := fun _ _ _ _ _ => true

/-- A cache-bin metadata holding one data extent in a projected SRS, in metres, with
`xMax = 33554433 = 2^25 + 1`, `minLevel` 3 and no `maxLevel`. -/
def metadata : CacheBinMetadata where
  _valid := true
  _cacheBinId := ⟨true, "bin"⟩
  _sourceName := ⟨false, ""⟩
  _sourceDriver := ⟨false, ""⟩
  _sourceTileSize := ⟨true, 256⟩
  _sourceProfile := ⟨true, Config.mk "profile" "spherical-mercator" []⟩
  _cacheProfile := ⟨true, Config.mk "profile" "spherical-mercator" []⟩
  _cacheCreateTime := ⟨false, 0⟩
  _dataExtents :=
    [{ valid := true, srs := ⟨"epsg:3857"⟩, xMin := 0, yMin := 0,
       xMax := 33554433, yMax := 1024,
       minLevel := ⟨true, 3⟩, maxLevel := ⟨false, 0⟩ }]

end Sample

end Rocky

namespace Rocky

namespace CacheBinMetadata

/-! ## Vocabulary of the cache-bin metadata claims -/

/-- What `readExtent` makes of a level written by `writeExtent`: the level parsed back when
it was set and written as a non-empty text, an unset level otherwise. -/
def levelReadBack (codec : Codec) (level : optional Nat) : optional Nat :=
  if level.has_value = true ∧ (codec.unsignedToString level.value).isEmpty = false then
    optional.assign (codec.stringToUnsigned (codec.unsignedToString level.value) 0)
  else ⟨false, 0⟩

/-- Two optional levels agree: one is set exactly when the other is, with the same
value. -/
def sameLevel (a b : optional Nat) : Prop :=
  a.has_value = b.has_value ∧ (b.has_value = true → a.value = b.value)

/-- Two data extents agree in SRS, rectangle and optional levels. -/
def sameExtent (a b : DataExtent) : Prop :=
  a.srs = b.srs ∧ a.xMin = b.xMin ∧ a.yMin = b.yMin ∧ a.xMax = b.xMax ∧ a.yMax = b.yMax ∧
    sameLevel a.minLevel b.minLevel ∧ sameLevel a.maxLevel b.maxLevel

/-- A coordinate survives the round trip: written as text and read back as a `float`, it
is the same number. -/
def coordinateSurvives (codec : Codec) (x : ℚ) : Prop :=
  codec.stringToFloat (codec.doubleToString x) 0 = x

/-- A level survives the round trip when it is set: it is written as a non-empty text that
parses back to the same number. -/
def levelSurvives (codec : Codec) (level : optional Nat) : Prop :=
  level.has_value = true →
    (codec.unsignedToString level.value).isEmpty = false ∧
      codec.stringToUnsigned (codec.unsignedToString level.value) 0 = level.value

end CacheBinMetadata

end Rocky

namespace Rocky

namespace TileLayer

/-! ## Configuration getters -/

/-- Embedding of `TileLayer::minLevel`. -/
def minLevel (self : TileLayer) : optional Nat := self._minLevel

/-- Embedding of `TileLayer::maxLevel`. -/
def maxLevel (self : TileLayer) : optional Nat := self._maxLevel

/-- Embedding of `TileLayer::minResolution`. -/
def minResolution (self : TileLayer) : optional ℚ := self._minResolution

/-- Embedding of `TileLayer::maxResolution`. -/
def maxResolution (self : TileLayer) : optional ℚ := self._maxResolution

/-- Embedding of `TileLayer::maxDataLevel`. -/
def maxDataLevel (self : TileLayer) : optional Nat := self._maxDataLevel

/-- Embedding of `TileLayer::tileSize`. -/
def tileSize (self : TileLayer) : optional Nat := self._tileSize

/-- Embedding of `TileLayer::upsample`. -/
def upsample (self : TileLayer) : optional Bool := self._upsample

end TileLayer

namespace CacheBinMetadata

/-- Embedding of the copy constructor `CacheBinMetadata(const CacheBinMetadata& rhs)`: its
initialiser list names `_valid`, `_cacheBinId`, `_sourceName`, `_sourceDriver`,
`_sourceTileSize`, `_sourceProfile`, `_cacheProfile` and `_cacheCreateTime`; `_dataExtents`
is not named and is default-constructed, an empty list. -/
def copy (rhs : CacheBinMetadata) : CacheBinMetadata where
  _valid := rhs._valid
  _cacheBinId := rhs._cacheBinId
  _sourceName := rhs._sourceName
  _sourceDriver := rhs._sourceDriver
  _sourceTileSize := rhs._sourceTileSize
  _sourceProfile := rhs._sourceProfile
  _cacheProfile := rhs._cacheProfile
  _cacheCreateTime := rhs._cacheCreateTime
  _dataExtents := []

end CacheBinMetadata

end Rocky

namespace Rocky

/-! ## Basic facts -/

theorem TileKey.INVALID_valid : TileKey.INVALID.valid = false := rfl

theorem TileKey.createAncestorKey_self (key : TileKey) :
    key.createAncestorKey key.levelOfDetail = key := by
  simp [TileKey.createAncestorKey]

theorem TileKey.createAncestorKey_of_le (key : TileKey) {l : Nat}
    (h : l ≤ key.levelOfDetail) :
    (key.createAncestorKey l).levelOfDetail = l ∧
      (key.createAncestorKey l).profile = key.profile := by
  simp [TileKey.createAncestorKey, Nat.not_lt.mpr h]

theorem TileKey.createAncestorKey_of_gt (key : TileKey) {l : Nat}
    (h : key.levelOfDetail < l) : key.createAncestorKey l = TileKey.INVALID := by
  simp [TileKey.createAncestorKey, h]

theorem TileKey.createAncestorKey_valid (key : TileKey) {l : Nat}
    (h : (key.createAncestorKey l).valid = true) :
    l ≤ key.levelOfDetail ∧ (key.createAncestorKey l).levelOfDetail = l := by
  by_cases hl : key.levelOfDetail < l
  · rw [TileKey.createAncestorKey_of_gt key hl] at h
    simp [TileKey.INVALID_valid] at h
  · exact ⟨Nat.not_lt.mp hl, (TileKey.createAncestorKey_of_le key (Nat.not_lt.mp hl)).1⟩

namespace TileLayer

/-- The layer after `getDataExtentsUnion` differs from the layer before at most in
`_dataExtentsUnion`. -/
theorem getDataExtentsUnion_snd (env : Env) (self : TileLayer) :
    (getDataExtentsUnion env self).2 =
      { self with _dataExtentsUnion := (getDataExtentsUnion env self).1 } := by
  unfold getDataExtentsUnion
  split
  · split <;> rfl
  · rfl

/-- The layer after `ensureIndex` differs from the layer before at most in
`_dataExtentsIndex`. -/
theorem ensureIndex_snd (env : Env) (self : TileLayer) :
    (ensureIndex env self).2 =
      { self with _dataExtentsIndex := some (ensureIndex env self).1 } := by
  unfold ensureIndex
  split
  · next index h => cases self; simp_all
  · rfl

theorem getDataExtentsUnion_snd_profile (env : Env) (self : TileLayer) :
    (getDataExtentsUnion env self).2._profile = self._profile := by
  rw [getDataExtentsUnion_snd]

theorem ensureIndex_snd_profile (env : Env) (self : TileLayer) :
    (ensureIndex env self).2._profile = self._profile := by
  rw [ensureIndex_snd]

theorem getDataExtentsUnion_snd_maxDataLevel (env : Env) (self : TileLayer) :
    (getDataExtentsUnion env self).2._maxDataLevel = self._maxDataLevel := by
  rw [getDataExtentsUnion_snd]

theorem ensureIndex_snd_maxDataLevel (env : Env) (self : TileLayer) :
    (ensureIndex env self).2._maxDataLevel = self._maxDataLevel := by
  rw [ensureIndex_snd]

theorem getDataExtentsUnion_snd_upsample (env : Env) (self : TileLayer) :
    (getDataExtentsUnion env self).2._upsample = self._upsample := by
  rw [getDataExtentsUnion_snd]

theorem ensureIndex_snd_upsample (env : Env) (self : TileLayer) :
    (ensureIndex env self).2._upsample = self._upsample := by
  rw [ensureIndex_snd]

/-- The final part of `getBestAvailableTileKey` reads only `_maxDataLevel` and `_upsample`
of the layer. -/
theorem afterSearch_congr (a b : TileLayer) (key : TileKey) (u : Bool) (s : SearchState)
    (h1 : a._maxDataLevel = b._maxDataLevel) (h2 : a._upsample = b._upsample) :
    afterSearch a key u s = afterSearch b key u s := by
  unfold afterSearch
  rw [h1, h2]

/-- The result of `getBestAvailableTileKey`, branch by branch, in terms of the layer it is
called on. -/
theorem getBestAvailableTileKey_fst (env : Env) (self : TileLayer) (key : TileKey)
    (u : Bool) :
    (getBestAvailableTileKey env self key u).1 =
      if key.valid = false then TileKey.INVALID
      else if levelLimitsReject self (localLOD env self key) = true then TileKey.INVALID
      else if resolutionLimitsReject env self key = true then TileKey.INVALID
      else if self._dataExtents = [] then
        mdlLimitedKey key (localLOD env self key) self._maxDataLevel.value
      else if env.intersects (getDataExtentsUnion env self).1.toGeoExtent (env.extent key)
          = false then TileKey.INVALID
      else
        afterSearch self key u
          (visitAll key (localLOD env self key) self._maxDataLevel.value
            (hitExtents env self key) ⟨TileKey.INVALID, false, 0⟩) := by
  cases hv : key.valid
  · simp [getBestAvailableTileKey, hv]
  cases h1 : levelLimitsReject self (localLOD env self key)
  swap
  · simp [getBestAvailableTileKey, hv, h1]
  cases h2 : resolutionLimitsReject env self key
  swap
  · simp [getBestAvailableTileKey, hv, h1, h2]
  by_cases h3 : self._dataExtents = []
  · simp [getBestAvailableTileKey, hv, h1, h2, h3, getDataExtentsSize, mdlLimitedKey]
  have h3' : (getDataExtentsSize self == 0) = false := by
    simp [getDataExtentsSize, h3]
  cases h4 : env.intersects (getDataExtentsUnion env self).1.toGeoExtent (env.extent key)
  · simp [getBestAvailableTileKey, hv, h1, h2, h3, h3', h4]
  simp only [getBestAvailableTileKey, hv, h1, h2, h3, h3', h4, Bool.not_true, Bool.not_false,
    Bool.false_eq_true, if_false, Bool.true_eq_false]
  exact afterSearch_congr _ _ _ _ _
    (by rw [ensureIndex_snd_maxDataLevel, getDataExtentsUnion_snd_maxDataLevel])
    (by rw [ensureIndex_snd_upsample, getDataExtentsUnion_snd_upsample])

/-! ### The search visitor -/

theorem visitor_accept (key : TileKey) (l m : Nat) (de : DataExtent) (s : SearchState)
    (h : acceptsLevel l de = true) :
    visitor key l m de s = (false, ⟨mdlLimitedKey key l m, true, s.highestLOD⟩) := by
  unfold acceptsLevel passesMinLevel at h
  unfold visitor
  simp only [Bool.and_eq_true, Bool.or_eq_true, Bool.not_eq_true', decide_eq_true_eq] at h
  obtain ⟨h1, h2⟩ := h
  have h1' : (!de.minLevel.has_value || decide (l ≥ de.minLevel.value)) = true := by
    simpa using h1
  rw [if_pos h1']
  rcases h2 with h2 | h2
  · simp [h2]
  · cases hm : de.maxLevel.has_value
    · simp
    · simp [h2]

theorem visitor_skip (key : TileKey) (l m : Nat) (de : DataExtent) (s : SearchState)
    (h : passesMinLevel l de = false) :
    visitor key l m de s = (true, s) := by
  unfold passesMinLevel at h
  unfold visitor
  have h' : ¬ ((!de.minLevel.has_value || decide (l ≥ de.minLevel.value)) = true) := by
    simpa using h
  rw [if_neg h']

theorem visitor_pass (key : TileKey) (l m : Nat) (de : DataExtent) (s : SearchState)
    (h1 : passesMinLevel l de = true) (h2 : acceptsLevel l de = false) :
    visitor key l m de s = (true, ⟨s.bestKey, true, max s.highestLOD de.maxLevel.value⟩) := by
  unfold acceptsLevel at h2
  rw [h1] at h2
  simp only [Bool.true_and, Bool.or_eq_false_iff, Bool.not_eq_false', decide_eq_false_iff_not,
    Nat.not_le] at h2
  obtain ⟨hm, hlt⟩ := h2
  unfold passesMinLevel at h1
  unfold visitor
  have h1' : (!de.minLevel.has_value || decide (l ≥ de.minLevel.value)) = true := by
    simpa using h1
  rw [if_pos h1']
  simp only [hm, Bool.not_true, Bool.false_eq_true, if_false, Nat.not_le.mpr hlt]
  by_cases hg : de.maxLevel.value > s.highestLOD
  · rw [if_pos hg, Nat.max_eq_right (Nat.le_of_lt hg)]
  · rw [if_neg hg, Nat.max_eq_left (Nat.not_lt.mp hg)]

/-- A hit that passes the `minLevel` test without being accepted has its `maxLevel` set and
below the local LOD. -/
theorem maxLevel_lt_of_not_accepts (l : Nat) (de : DataExtent)
    (h1 : passesMinLevel l de = true) (h2 : acceptsLevel l de = false) :
    de.maxLevel.has_value = true ∧ de.maxLevel.value < l := by
  unfold acceptsLevel at h2
  rw [h1] at h2
  simpa using h2

/-- With an accepting hit among the visited extents the search ends with `bestKey` assigned
and `intersects` set. -/
theorem visitAll_accept (key : TileKey) (l m : Nat) (hits : List DataExtent)
    (s : SearchState) (h : ∃ de ∈ hits, acceptsLevel l de = true) :
    (visitAll key l m hits s).bestKey = mdlLimitedKey key l m ∧
      (visitAll key l m hits s).intersects = true := by
  induction hits generalizing s with
  | nil => simp at h
  | cons de rest ih =>
    cases ha : acceptsLevel l de
    · have hrest : ∃ d ∈ rest, acceptsLevel l d = true := by
        obtain ⟨d, hd, hda⟩ := h
        rcases List.mem_cons.1 hd with rfl | hd
        · rw [ha] at hda
          cases hda
        · exact ⟨d, hd, hda⟩
      cases hp : passesMinLevel l de
      · simp only [visitAll, visitor_skip key l m de s hp]
        exact ih s hrest
      · simp only [visitAll, visitor_pass key l m de s hp ha]
        exact ih _ hrest
    · simp [visitAll, visitor_accept key l m de s ha]

/-- Without accepting hit the search leaves `bestKey` alone, sets `intersects` when some hit
passes the `minLevel` test, and ends with the largest `maxLevel` of those hits. -/
theorem visitAll_no_accept (key : TileKey) (l m : Nat) (hits : List DataExtent)
    (s : SearchState) (h : ∀ de ∈ hits, acceptsLevel l de = false) :
    visitAll key l m hits s =
      ⟨s.bestKey, s.intersects || hits.any (passesMinLevel l),
        highestMaxLevel l hits s.highestLOD⟩ := by
  induction hits generalizing s with
  | nil => simp [visitAll, highestMaxLevel]
  | cons de rest ih =>
    have ha : acceptsLevel l de = false := h de (List.mem_cons_self _ _)
    have hrest : ∀ d ∈ rest, acceptsLevel l d = false :=
      fun d hd => h d (List.mem_cons_of_mem _ hd)
    cases hp : passesMinLevel l de
    · simp only [visitAll, visitor_skip key l m de s hp]
      rw [ih s hrest]
      simp [highestMaxLevel, List.filter_cons, hp]
    · simp only [visitAll, visitor_pass key l m de s hp ha]
      rw [ih _ hrest]
      simp [highestMaxLevel, List.filter_cons, hp]

/-- Whatever the hits, `bestKey` ends as it started or as the MDL-limited key. -/
theorem visitAll_bestKey (key : TileKey) (l m : Nat) (hits : List DataExtent)
    (s : SearchState) :
    (visitAll key l m hits s).bestKey = s.bestKey ∨
      (visitAll key l m hits s).bestKey = mdlLimitedKey key l m := by
  by_cases h : ∃ de ∈ hits, acceptsLevel l de = true
  · exact Or.inr (visitAll_accept key l m hits s h).1
  · left
    rw [visitAll_no_accept key l m hits s]
    intro de hde
    cases ha : acceptsLevel l de
    · rfl
    · exact absurd ⟨de, hde, ha⟩ h

theorem foldl_max_ge_init (f : DataExtent → Nat) (hits : List DataExtent) (init : Nat) :
    init ≤ hits.foldl (fun h de => max h (f de)) init := by
  induction hits generalizing init with
  | nil => exact Nat.le_refl _
  | cons de rest ih => exact Nat.le_trans (Nat.le_max_left _ _) (ih _)

theorem foldl_max_ge_mem (f : DataExtent → Nat) (hits : List DataExtent) (init : Nat)
    (de : DataExtent) (hde : de ∈ hits) :
    f de ≤ hits.foldl (fun h de => max h (f de)) init := by
  induction hits generalizing init with
  | nil => simp at hde
  | cons d rest ih =>
    rcases List.mem_cons.1 hde with rfl | hd
    · exact Nat.le_trans (Nat.le_max_right _ _) (foldl_max_ge_init f rest _)
    · exact ih _ hd

theorem foldl_max_le (f : DataExtent → Nat) (hits : List DataExtent) (init bound : Nat)
    (hinit : init ≤ bound) (h : ∀ de ∈ hits, f de ≤ bound) :
    hits.foldl (fun h de => max h (f de)) init ≤ bound := by
  induction hits generalizing init with
  | nil => exact hinit
  | cons d rest ih =>
    exact ih _ (Nat.max_le.2 ⟨hinit, h d (List.mem_cons_self _ _)⟩)
      (fun de hde => h de (List.mem_cons_of_mem _ hde))

/-- The value `highestMaxLevel` is the largest `maxLevel` among the hits passing the
`minLevel` test: any `H` that is attained by one of them and bounds them all is it. -/
theorem highestMaxLevel_eq (l : Nat) (hits : List DataExtent) (H : Nat)
    (hmem : ∃ de ∈ hits, passesMinLevel l de = true ∧ de.maxLevel.value = H)
    (hmax : ∀ de ∈ hits, passesMinLevel l de = true → de.maxLevel.value ≤ H) :
    highestMaxLevel l hits 0 = H := by
  unfold highestMaxLevel
  apply Nat.le_antisymm
  · apply foldl_max_le (fun de => de.maxLevel.value) _ 0 H (Nat.zero_le _)
    intro de hde
    rw [List.mem_filter] at hde
    exact hmax de hde.1 hde.2
  · obtain ⟨de, hde, hp, hH⟩ := hmem
    rw [← hH]
    exact foldl_max_ge_mem (fun de => de.maxLevel.value) _ 0 de
      (List.mem_filter.2 ⟨hde, hp⟩)

/-- Whatever the hits, `highestLOD` ends as it started or as the `maxLevel` of a hit that
passed the `minLevel` test with its `maxLevel` set and below the local LOD. -/
theorem visitAll_highestLOD (key : TileKey) (l m : Nat) (hits : List DataExtent)
    (s : SearchState) :
    (visitAll key l m hits s).highestLOD = s.highestLOD ∨
      ∃ de ∈ hits, passesMinLevel l de = true ∧ de.maxLevel.has_value = true ∧
        de.maxLevel.value < l ∧ (visitAll key l m hits s).highestLOD = de.maxLevel.value := by
  induction hits generalizing s with
  | nil => exact Or.inl rfl
  | cons de rest ih =>
    cases ha : acceptsLevel l de
    · cases hp : passesMinLevel l de
      · simp only [visitAll, visitor_skip key l m de s hp]
        rcases ih s with h | ⟨d, hd, h⟩
        · exact Or.inl h
        · exact Or.inr ⟨d, List.mem_cons_of_mem _ hd, h⟩
      · simp only [visitAll, visitor_pass key l m de s hp ha]
        obtain ⟨hset, hlt⟩ := maxLevel_lt_of_not_accepts l de hp ha
        rcases ih ⟨s.bestKey, true, max s.highestLOD de.maxLevel.value⟩ with h | ⟨d, hd, h⟩
        · rcases Nat.le_total s.highestLOD de.maxLevel.value with hle | hle
          · right
            refine ⟨de, List.mem_cons_self _ _, hp, hset, hlt, ?_⟩
            rw [h]
            exact Nat.max_eq_right hle
          · left
            rw [h]
            exact Nat.max_eq_left hle
        · exact Or.inr ⟨d, List.mem_cons_of_mem _ hd, h⟩
    · simp [visitAll, visitor_accept key l m de s ha]

/-- The three gates shared by `isKeyInVisualRange` and `getBestAvailableTileKey`. -/
theorem isKeyInVisualRange_eq_true_iff (env : Env) (self : TileLayer) (key : TileKey) :
    isKeyInVisualRange env self key = true ↔
      key.valid = true ∧ levelLimitsReject self (localLOD env self key) = false ∧
        resolutionLimitsReject env self key = false := by
  unfold isKeyInVisualRange
  cases key.valid <;> cases levelLimitsReject self (localLOD env self key) <;>
    cases resolutionLimitsReject env self key <;> simp

/-- When `isKeyInVisualRange` rejects: an invalid key, a local LOD outside the level limits
that are set, or a resolution limit rejecting the key. -/
theorem isKeyInVisualRange_eq_false_iff (env : Env) (self : TileLayer) (key : TileKey) :
    isKeyInVisualRange env self key = false ↔
      key.valid = false ∨ levelLimitsReject self (localLOD env self key) = true ∨
        resolutionLimitsReject env self key = true := by
  unfold isKeyInVisualRange
  cases key.valid <;> cases levelLimitsReject self (localLOD env self key) <;>
    cases resolutionLimitsReject env self key <;> simp

theorem levelLimitsReject_eq_true_iff (self : TileLayer) (lod : Nat) :
    levelLimitsReject self lod = true ↔
      (self._minLevel.has_value = true ∧ lod < self._minLevel.value) ∨
        (self._maxLevel.has_value = true ∧ lod > self._maxLevel.value) := by
  unfold levelLimitsReject
  simp only [Bool.or_eq_true, Bool.and_eq_true, decide_eq_true_eq]
  exact or_comm

theorem resolutionLimitsReject_eq_true_iff (env : Env) (self : TileLayer) (key : TileKey) :
    resolutionLimitsReject env self key = true ↔
      self._profile.valid = true ∧
        ((self._maxResolution.has_value = true ∧
            self._maxResolution.value > resLayer env self key) ∨
          (self._minResolution.has_value = true ∧
            self._minResolution.value < resLayer env self key)) := by
  unfold resolutionLimitsReject
  cases h1 : self._minResolution.has_value <;> cases h2 : self._maxResolution.has_value <;>
    cases h3 : self._profile.valid <;> simp

/-- The final part of `getBestAvailableTileKey` with its two fallback branches merged. -/
theorem afterSearch_eq (self : TileLayer) (key : TileKey) (u : Bool) (s : SearchState) :
    afterSearch self key u s =
      if s.bestKey.valid = true then s.bestKey
      else if s.intersects = true then
        key.createAncestorKey (min key.levelOfDetail
          (if upsampling self u = true then max s.highestLOD self._maxDataLevel.value
           else min s.highestLOD self._maxDataLevel.value))
      else TileKey.INVALID := by
  unfold afterSearch upsampling
  cases s.bestKey.valid <;> cases s.intersects <;>
    cases (u && self._upsample.value == true) <;> simp

theorem mdlLimitedKey_of_le (key : TileKey) {l m : Nat} (h : l ≤ m) :
    mdlLimitedKey key l m = key := by
  unfold mdlLimitedKey
  rw [if_neg (Nat.not_lt.mpr h)]

theorem mdlLimitedKey_of_gt (key : TileKey) {l m : Nat} (h : l > m) :
    mdlLimitedKey key l m = key.createAncestorKey m := by
  unfold mdlLimitedKey
  rw [if_pos h]

/-- What an accepting hit is, spelled out. -/
theorem acceptsLevel_eq_true_iff (l : Nat) (de : DataExtent) :
    acceptsLevel l de = true ↔
      (de.minLevel.has_value = false ∨ de.minLevel.value ≤ l) ∧
        (de.maxLevel.has_value = false ∨ l ≤ de.maxLevel.value) := by
  simp [acceptsLevel, passesMinLevel]

/-- The result of `getBestAvailableTileKey` for a key that passes the gates on a layer
without data extents. -/
theorem getBestAvailableTileKey_empty (env : Env) (self : TileLayer) (key : TileKey)
    (u : Bool) (hempty : self._dataExtents = [])
    (hgates : isKeyInVisualRange env self key = true) :
    (getBestAvailableTileKey env self key u).1 =
      mdlLimitedKey key (localLOD env self key) self._maxDataLevel.value := by
  obtain ⟨hv, hl, hr⟩ := (isKeyInVisualRange_eq_true_iff env self key).1 hgates
  rw [getBestAvailableTileKey_fst]
  simp only [hv, hl, hr, hempty, Bool.true_eq_false, Bool.false_eq_true, if_false, if_true]

/-- A legal key is in visual range and, when `maxDataLevel` is set, not above it. -/
theorem isKeyInLegalRange_eq_true (env : Env) (self : TileLayer) (key : TileKey)
    (h : isKeyInLegalRange env self key = true) :
    isKeyInVisualRange env self key = true ∧
      (self._maxDataLevel.has_value = true →
        localLOD env self key ≤ self._maxDataLevel.value) := by
  unfold isKeyInLegalRange at h
  unfold isKeyInVisualRange
  cases hv : key.valid <;> cases hl : levelLimitsReject self (localLOD env self key) <;>
    cases hr : resolutionLimitsReject env self key <;>
    cases hm : self._maxDataLevel.has_value <;> simp_all

/-- The result of `getBestAvailableTileKey` when the R-tree search is reached. -/
theorem getBestAvailableTileKey_search (env : Env) (self : TileLayer) (key : TileKey)
    (u : Bool) (hgates : isKeyInVisualRange env self key = true)
    (hnonempty : self._dataExtents ≠ [])
    (hunion : env.intersects (getDataExtentsUnion env self).1.toGeoExtent (env.extent key)
      = true) :
    (getBestAvailableTileKey env self key u).1 =
      afterSearch self key u
        (visitAll key (localLOD env self key) self._maxDataLevel.value
          (hitExtents env self key) ⟨TileKey.INVALID, false, 0⟩) := by
  obtain ⟨hv, hl, hr⟩ := (isKeyInVisualRange_eq_true_iff env self key).1 hgates
  rw [getBestAvailableTileKey_fst]
  simp only [hv, hl, hr, hnonempty, hunion, Bool.true_eq_false, Bool.false_eq_true, if_false]

/-- The possible results of `getBestAvailableTileKey`: INVALID, the MDL-limited key, or the
ancestor at `min(key.lod, M)` where `M` combines MDL with `h`, which is `0` or the
`maxLevel` of a hit extent that lies below the local LOD. -/
theorem getBestAvailableTileKey_shape (env : Env) (self : TileLayer) (key : TileKey)
    (u : Bool) :
    (getBestAvailableTileKey env self key u).1 = TileKey.INVALID ∨
    (getBestAvailableTileKey env self key u).1 =
      mdlLimitedKey key (localLOD env self key) self._maxDataLevel.value ∨
    ∃ h : Nat,
      (h = 0 ∨ ∃ de ∈ hitExtents env self key, de.maxLevel.has_value = true ∧
        de.maxLevel.value < localLOD env self key ∧ h = de.maxLevel.value) ∧
      (getBestAvailableTileKey env self key u).1 =
        key.createAncestorKey (min key.levelOfDetail
          (if upsampling self u = true then max h self._maxDataLevel.value
           else min h self._maxDataLevel.value)) := by
  rw [getBestAvailableTileKey_fst]
  by_cases hv : key.valid = false
  · exact Or.inl (by simp [hv])
  by_cases h1 : levelLimitsReject self (localLOD env self key) = true
  · exact Or.inl (by simp [h1])
  by_cases h2 : resolutionLimitsReject env self key = true
  · exact Or.inl (by simp [h2])
  by_cases h3 : self._dataExtents = []
  · exact Or.inr (Or.inl (by simp [hv, h1, h2, h3]))
  by_cases h4 : env.intersects (getDataExtentsUnion env self).1.toGeoExtent (env.extent key)
      = false
  · exact Or.inl (by simp [hv, h1, h2, h3, h4])
  simp only [hv, h1, h2, h3, h4, if_false]
  generalize hs : visitAll key (localLOD env self key) self._maxDataLevel.value
    (hitExtents env self key) ⟨TileKey.INVALID, false, 0⟩ = fin
  have hb := visitAll_bestKey key (localLOD env self key) self._maxDataLevel.value
    (hitExtents env self key) ⟨TileKey.INVALID, false, 0⟩
  have hh := visitAll_highestLOD key (localLOD env self key) self._maxDataLevel.value
    (hitExtents env self key) ⟨TileKey.INVALID, false, 0⟩
  rw [hs] at hb hh
  rw [afterSearch_eq]
  by_cases hbv : fin.bestKey.valid = true
  · rw [if_pos hbv]
    rcases hb with hb | hb
    · rw [hb] at hbv
      simp [TileKey.INVALID_valid] at hbv
    · exact Or.inr (Or.inl hb)
  · rw [if_neg hbv]
    by_cases hi : fin.intersects = true
    · rw [if_pos hi]
      right
      right
      refine ⟨fin.highestLOD, ?_, rfl⟩
      rcases hh with hh | ⟨de, hde, _, hset, hlt, hEq⟩
      · exact Or.inl hh
      · exact Or.inr ⟨de, hde, hset, hlt, hEq⟩
    · rw [if_neg hi]
      exact Or.inl rfl

/-! ### Caches do not change answers -/

theorem SameConfig.refl (a : TileLayer) : SameConfig a a :=
  ⟨rfl, rfl, rfl, rfl, rfl, rfl, rfl, rfl, rfl⟩

theorem SameConfig.trans {a b c : TileLayer} (h1 : SameConfig a b) (h2 : SameConfig b c) :
    SameConfig a c :=
  ⟨h1.minLevel.trans h2.minLevel, h1.maxLevel.trans h2.maxLevel,
    h1.minResolution.trans h2.minResolution, h1.maxResolution.trans h2.maxResolution,
    h1.maxDataLevel.trans h2.maxDataLevel, h1.tileSize.trans h2.tileSize,
    h1.upsample.trans h2.upsample, h1.profile.trans h2.profile,
    h1.dataExtents.trans h2.dataExtents⟩

theorem getDataExtentsUnion_sameConfig (env : Env) (self : TileLayer) :
    SameConfig (getDataExtentsUnion env self).2 self := by
  rw [getDataExtentsUnion_snd]
  exact ⟨rfl, rfl, rfl, rfl, rfl, rfl, rfl, rfl, rfl⟩

theorem ensureIndex_sameConfig (env : Env) (self : TileLayer) :
    SameConfig (ensureIndex env self).2 self := by
  rw [ensureIndex_snd]
  exact ⟨rfl, rfl, rfl, rfl, rfl, rfl, rfl, rfl, rfl⟩

theorem localLOD_congr (env : Env) {a b : TileLayer} (h : SameConfig a b) (key : TileKey) :
    localLOD env a key = localLOD env b key := by
  unfold localLOD
  rw [h.profile]

theorem levelLimitsReject_congr {a b : TileLayer} (h : SameConfig a b) (lod : Nat) :
    levelLimitsReject a lod = levelLimitsReject b lod := by
  unfold levelLimitsReject
  rw [h.minLevel, h.maxLevel]

theorem resolutionLimitsReject_congr (env : Env) {a b : TileLayer} (h : SameConfig a b)
    (key : TileKey) :
    resolutionLimitsReject env a key = resolutionLimitsReject env b key := by
  unfold resolutionLimitsReject resLayer
  rw [h.minResolution, h.maxResolution, h.profile, h.tileSize]

theorem isKeyInVisualRange_congr (env : Env) {a b : TileLayer} (h : SameConfig a b)
    (key : TileKey) :
    isKeyInVisualRange env a key = isKeyInVisualRange env b key := by
  unfold isKeyInVisualRange
  rw [localLOD_congr env h, levelLimitsReject_congr h, resolutionLimitsReject_congr env h]

theorem computeUnion_congr (env : Env) {a b : TileLayer} (h : SameConfig a b)
    (first : DataExtent) (rest : List DataExtent) :
    computeUnion env a first rest = computeUnion env b first rest := by
  unfold computeUnion
  rw [h.maxDataLevel, h.upsample]

theorem buildIndex_congr (env : Env) {a b : TileLayer} (h : SameConfig a b) :
    buildIndex env a = buildIndex env b := by
  have hstep : indexInsertExtent env a = indexInsertExtent env b := by
    funext index de
    unfold indexInsertExtent
    rw [h.profile]
  unfold buildIndex
  rw [hstep, h.dataExtents]

theorem getDataExtentsUnion_snd_index (env : Env) (self : TileLayer) :
    (getDataExtentsUnion env self).2._dataExtentsIndex = self._dataExtentsIndex := by
  rw [getDataExtentsUnion_snd]

theorem ensureIndex_snd_union (env : Env) (self : TileLayer) :
    (ensureIndex env self).2._dataExtentsUnion = self._dataExtentsUnion := by
  rw [ensureIndex_snd]

theorem getDataExtentsUnion_snd_union (env : Env) (self : TileLayer) :
    (getDataExtentsUnion env self).2._dataExtentsUnion = (getDataExtentsUnion env self).1 := by
  rw [getDataExtentsUnion_snd]

theorem ensureIndex_snd_index (env : Env) (self : TileLayer) :
    (ensureIndex env self).2._dataExtentsIndex = some (ensureIndex env self).1 := by
  rw [ensureIndex_snd]

/-- The union returned by `getDataExtentsUnion`, as a function of the cached union. -/
theorem getDataExtentsUnion_fst (env : Env) (self : TileLayer) :
    (getDataExtentsUnion env self).1 =
      match self._dataExtents with
      | [] => self._dataExtentsUnion
      | first :: rest =>
        if self._dataExtentsUnion.valid = false then computeUnion env self first rest
        else self._dataExtentsUnion := by
  unfold getDataExtentsUnion getDataExtentsSize
  cases hl : self._dataExtents with
  | nil => simp
  | cons first rest =>
    cases hv : self._dataExtentsUnion.valid <;> simp

/-- The index used by `ensureIndex`, as a function of the cached index. -/
theorem ensureIndex_fst (env : Env) (self : TileLayer) :
    (ensureIndex env self).1 =
      match self._dataExtentsIndex with
      | some index => index
      | none => buildIndex env self := by
  unfold ensureIndex
  cases self._dataExtentsIndex <;> rfl

/-- Filled caches return the union the original layer returns. -/
theorem CachesFilled.union_eq {env : Env} {s t : TileLayer} (h : CachesFilled env s t) :
    (getDataExtentsUnion env t).1 = (getDataExtentsUnion env s).1 := by
  obtain ⟨hc, hu, _⟩ := h
  rw [getDataExtentsUnion_fst env t, hc.dataExtents]
  rcases hu with hu | hu
  · rw [hu, getDataExtentsUnion_fst env s]
    cases hl : s._dataExtents with
    | nil => rfl
    | cons first rest =>
      simp only []
      rw [computeUnion_congr env hc]
  · rw [hu]
    cases hl : s._dataExtents with
    | nil => rfl
    | cons first rest =>
      simp only []
      by_cases hv : (getDataExtentsUnion env s).1.valid = false
      · rw [if_pos hv, computeUnion_congr env hc]
        rw [getDataExtentsUnion_fst env s, hl] at hv ⊢
        simp only [] at hv ⊢
        by_cases hsv : s._dataExtentsUnion.valid = false
        · rw [if_pos hsv]
        · rw [if_neg hsv] at hv
          exact absurd hv hsv
      · rw [if_neg hv]

/-- Filled caches search the index the original layer searches. -/
theorem CachesFilled.index_eq {env : Env} {s t : TileLayer} (h : CachesFilled env s t) :
    indexInUse env t = indexInUse env s := by
  obtain ⟨hc, _, hi⟩ := h
  unfold indexInUse
  rw [ensureIndex_fst env (getDataExtentsUnion env t).2,
    ensureIndex_fst env (getDataExtentsUnion env s).2,
    getDataExtentsUnion_snd_index, getDataExtentsUnion_snd_index]
  have hb : buildIndex env (getDataExtentsUnion env t).2 =
      buildIndex env (getDataExtentsUnion env s).2 :=
    buildIndex_congr env (((getDataExtentsUnion_sameConfig env t).trans hc).trans
      ⟨(getDataExtentsUnion_sameConfig env s).minLevel.symm,
        (getDataExtentsUnion_sameConfig env s).maxLevel.symm,
        (getDataExtentsUnion_sameConfig env s).minResolution.symm,
        (getDataExtentsUnion_sameConfig env s).maxResolution.symm,
        (getDataExtentsUnion_sameConfig env s).maxDataLevel.symm,
        (getDataExtentsUnion_sameConfig env s).tileSize.symm,
        (getDataExtentsUnion_sameConfig env s).upsample.symm,
        (getDataExtentsUnion_sameConfig env s).profile.symm,
        (getDataExtentsUnion_sameConfig env s).dataExtents.symm⟩)
  rcases hi with hi | hi
  · rw [hi, hb]
  · rw [hi]
    simp only []
    unfold indexInUse
    rw [ensureIndex_fst env (getDataExtentsUnion env s).2, getDataExtentsUnion_snd_index]

theorem hitExtents_eq (env : Env) (self : TileLayer) (key : TileKey) :
    hitExtents env self key =
      searchHits env (indexInUse env self)
        (rectOf (env.clampAndTransformExtent self._profile (env.extent key))) := by
  unfold hitExtents indexInUse
  simp only []
  rw [ensureIndex_snd_profile, getDataExtentsUnion_snd_profile]

/-- A layer whose caches were filled answers every query as the original layer does. -/
theorem CachesFilled.getBestAvailableTileKey_eq {env : Env} {s t : TileLayer}
    (h : CachesFilled env s t) (key : TileKey) (u : Bool) :
    (getBestAvailableTileKey env t key u).1 = (getBestAvailableTileKey env s key u).1 := by
  have hc := h.1
  rw [getBestAvailableTileKey_fst env t, getBestAvailableTileKey_fst env s,
    localLOD_congr env hc, levelLimitsReject_congr hc, resolutionLimitsReject_congr env hc,
    hc.dataExtents, hc.maxDataLevel, h.union_eq, hitExtents_eq env t, hitExtents_eq env s,
    h.index_eq, hc.profile,
    afterSearch_congr t s key u _ hc.maxDataLevel hc.upsample]

/-- The layer left by `getBestAvailableTileKey` is the layer it was called on with caches
filled. -/
theorem getBestAvailableTileKey_cachesFilled (env : Env) (self : TileLayer) (key : TileKey)
    (u : Bool) : CachesFilled env self (getBestAvailableTileKey env self key u).2 := by
  have hself : CachesFilled env self self := ⟨SameConfig.refl _, Or.inl rfl, Or.inl rfl⟩
  have hunion : CachesFilled env self (getDataExtentsUnion env self).2 :=
    ⟨getDataExtentsUnion_sameConfig env self,
      Or.inr (getDataExtentsUnion_snd_union env self),
      Or.inl (getDataExtentsUnion_snd_index env self)⟩
  have hindex : CachesFilled env self
      (ensureIndex env (getDataExtentsUnion env self).2).2 :=
    ⟨(ensureIndex_sameConfig env _).trans (getDataExtentsUnion_sameConfig env self),
      Or.inr ((ensureIndex_snd_union env _).trans (getDataExtentsUnion_snd_union env self)),
      Or.inr (ensureIndex_snd_index env _)⟩
  unfold getBestAvailableTileKey
  simp only []
  split_ifs
  all_goals first | exact hself | exact hunion | exact hindex

/-! ## The claims -/

/-- C1 as stated fails, in two ways. (1) A key of another profile: the sample layer over
the 8 × 4 profile with `maxDataLevel` set to 3 and no data extent, asked for the key
(5, 3, 1) of the 2 × 1 profile, whose local LOD is 3. The key is legal and is returned
unchanged, at level 5 > min(5, 3). (2) `maxDataLevel` left unset (value 99) with
upsampling: a world-wide extent with `maxLevel` 100 and the key (101, 0, 0) of the layer's
own profile. The key is legal and the call returns its ancestor at level
100 > min(101, 99). -/
theorem getBestAvailableTileKey_lod_le_counterexample :
    (isKeyInLegalRange Sample.env
        { Sample.layer with _profile := Sample.profile84, _maxDataLevel := ⟨true, 3⟩ }
        ⟨5, 3, 1, Sample.profile21⟩ = true ∧
      (getBestAvailableTileKey Sample.env
        { Sample.layer with _profile := Sample.profile84, _maxDataLevel := ⟨true, 3⟩ }
        ⟨5, 3, 1, Sample.profile21⟩ false).1 = ⟨5, 3, 1, Sample.profile21⟩ ∧
      (getBestAvailableTileKey Sample.env
        { Sample.layer with _profile := Sample.profile84, _maxDataLevel := ⟨true, 3⟩ }
        ⟨5, 3, 1, Sample.profile21⟩ false).1.valid = true ∧
      ¬ (getBestAvailableTileKey Sample.env
        { Sample.layer with _profile := Sample.profile84, _maxDataLevel := ⟨true, 3⟩ }
        ⟨5, 3, 1, Sample.profile21⟩ false).1.levelOfDetail ≤ min 5 3) ∧
    (isKeyInLegalRange Sample.env
        { Sample.layer with
            _upsample := ⟨true, true⟩,
            _dataExtents := [{ Sample.worldExtent with maxLevel := ⟨true, 100⟩ }] }
        ⟨101, 0, 0, Sample.profile21⟩ = true ∧
      (getBestAvailableTileKey Sample.env
        { Sample.layer with
            _upsample := ⟨true, true⟩,
            _dataExtents := [{ Sample.worldExtent with maxLevel := ⟨true, 100⟩ }] }
        ⟨101, 0, 0, Sample.profile21⟩ true).1 = ⟨100, 0, 0, Sample.profile21⟩ ∧
      (getBestAvailableTileKey Sample.env
        { Sample.layer with
            _upsample := ⟨true, true⟩,
            _dataExtents := [{ Sample.worldExtent with maxLevel := ⟨true, 100⟩ }] }
        ⟨101, 0, 0, Sample.profile21⟩ true).1.valid = true ∧
      ¬ (getBestAvailableTileKey Sample.env
        { Sample.layer with
            _upsample := ⟨true, true⟩,
            _dataExtents := [{ Sample.worldExtent with maxLevel := ⟨true, 100⟩ }] }
        ⟨101, 0, 0, Sample.profile21⟩ true).1.levelOfDetail ≤ min 101 99) := by
  refine ⟨⟨by decide, by decide, by decide, by decide⟩,
    ⟨by decide, by decide, by decide, by decide⟩⟩

/-- C1 (amended): for every layer configuration, extent list and cache state, every key
`k` for which `isKeyInLegalRange(k)` is true, and both values of `considerUpsampling`, the
key returned by `getBestAvailableTileKey`, when valid, has `levelOfDetail ≤ k.lod`; and it
has `levelOfDetail ≤ min(k.lod, MDL)` when moreover the local LOD of `k` is not below
`k.lod` (as for keys of the layer's own profile, where the two are equal) and either
`maxDataLevel` is set or upsampling is not in effect. -/
theorem getBestAvailableTileKey_lod_le (env : Env) (self : TileLayer) (key : TileKey)
    (considerUpsampling : Bool)
    (hlegal : isKeyInLegalRange env self key = true)
    (hvalid : (getBestAvailableTileKey env self key considerUpsampling).1.valid = true) :
    (getBestAvailableTileKey env self key considerUpsampling).1.levelOfDetail
        ≤ key.levelOfDetail ∧
    (key.levelOfDetail ≤ localLOD env self key →
      (self._maxDataLevel.has_value = true ∨ upsampling self considerUpsampling = false) →
      (getBestAvailableTileKey env self key considerUpsampling).1.levelOfDetail
        ≤ min key.levelOfDetail self._maxDataLevel.value) := by
  obtain ⟨_, hmdl⟩ := isKeyInLegalRange_eq_true env self key hlegal
  rcases getBestAvailableTileKey_shape env self key considerUpsampling with
    h | h | ⟨hh, _, h⟩
  · rw [h] at hvalid
    simp [TileKey.INVALID_valid] at hvalid
  · rw [h] at hvalid ⊢
    by_cases hgt : localLOD env self key > self._maxDataLevel.value
    · rw [mdlLimitedKey_of_gt key hgt] at hvalid ⊢
      obtain ⟨hle, hEq⟩ := TileKey.createAncestorKey_valid key hvalid
      rw [hEq]
      exact ⟨hle, fun _ _ => Nat.le_min.2 ⟨hle, Nat.le_refl _⟩⟩
    · rw [mdlLimitedKey_of_le key (Nat.not_lt.mp hgt)]
      exact ⟨Nat.le_refl _, fun hlod _ =>
        Nat.le_min.2 ⟨Nat.le_refl _, Nat.le_trans hlod (Nat.not_lt.mp hgt)⟩⟩
  · rw [h] at hvalid ⊢
    obtain ⟨_, hEq⟩ := TileKey.createAncestorKey_valid key hvalid
    rw [hEq]
    refine ⟨Nat.min_le_left _ _, fun hlod hcase => Nat.le_min.2 ⟨Nat.min_le_left _ _, ?_⟩⟩
    rcases hcase with hset | hup
    · exact Nat.le_trans (Nat.min_le_left _ _) (Nat.le_trans hlod (hmdl hset))
    · rw [hup]
      simp only [Bool.false_eq_true, if_false]
      exact Nat.le_trans (Nat.min_le_right _ _) (Nat.min_le_right _ _)

/-- C1 on explicit inputs: the sample layer with `maxDataLevel` set to 12, upsampling on
and an extent whose data stops at level 8; the legal key at level 10 inside the extent is
served at a level no deeper than min(10, 12). -/
theorem getBestAvailableTileKey_lod_le_witness :
    (getBestAvailableTileKey Sample.env
        { Sample.layer with _dataExtents := [Sample.quarterExtent],
                            _maxDataLevel := ⟨true, 12⟩, _upsample := ⟨true, true⟩ }
        ⟨10, 1500, 100, Sample.profile21⟩ true).1.levelOfDetail ≤ min 10 12 :=
  (getBestAvailableTileKey_lod_le Sample.env
      { Sample.layer with _dataExtents := [Sample.quarterExtent],
                          _maxDataLevel := ⟨true, 12⟩, _upsample := ⟨true, true⟩ }
      ⟨10, 1500, 100, Sample.profile21⟩ true (by decide) (by decide)).2
    (by decide) (Or.inl rfl)

/-! ### Keys served as themselves -/

/-- C3 as stated fails: the sample layer with MDL 5, `upsample` true and one extent whose
data stops at level 8, asked with `considerUpsampling` for a key at level 10 inside the
extent. The local LOD 10 is above MDL, and the valid result is the ancestor at level
8 > 5, because the fallback takes `max(highestLOD, MDL)`. -/
theorem getBestAvailableTileKey_mdl_clamp_counterexample :
    localLOD Sample.env
        { Sample.layer with _dataExtents := [Sample.quarterExtent],
                            _maxDataLevel := ⟨true, 5⟩, _upsample := ⟨true, true⟩ }
        ⟨10, 1500, 100, Sample.profile21⟩ = 10 ∧
    (getBestAvailableTileKey Sample.env
        { Sample.layer with _dataExtents := [Sample.quarterExtent],
                            _maxDataLevel := ⟨true, 5⟩, _upsample := ⟨true, true⟩ }
        ⟨10, 1500, 100, Sample.profile21⟩ true).1 = ⟨8, 375, 25, Sample.profile21⟩ ∧
    (getBestAvailableTileKey Sample.env
        { Sample.layer with _dataExtents := [Sample.quarterExtent],
                            _maxDataLevel := ⟨true, 5⟩, _upsample := ⟨true, true⟩ }
        ⟨10, 1500, 100, Sample.profile21⟩ true).1.valid = true ∧
    ¬ (getBestAvailableTileKey Sample.env
        { Sample.layer with _dataExtents := [Sample.quarterExtent],
                            _maxDataLevel := ⟨true, 5⟩, _upsample := ⟨true, true⟩ }
        ⟨10, 1500, 100, Sample.profile21⟩ true).1.levelOfDetail ≤ 5 := by
  refine ⟨by decide, by decide, by decide, by decide⟩

/-- C3 (amended): MDL clamp. For every layer and every key whose local LOD is greater than
MDL, the key returned by `getBestAvailableTileKey`, whenever it is valid, has
`levelOfDetail ≤ MDL` if upsampling is not in effect (`considerUpsampling` false or the
layer's `upsample` not true); with upsampling in effect it has `levelOfDetail ≤ MDL` or at
most the `maxLevel` of a hit extent whose `maxLevel` lies below the local LOD. -/
theorem getBestAvailableTileKey_mdl_clamp (env : Env) (self : TileLayer) (key : TileKey)
    (considerUpsampling : Bool)
    (hlod : localLOD env self key > self._maxDataLevel.value)
    (hvalid : (getBestAvailableTileKey env self key considerUpsampling).1.valid = true) :
    (upsampling self considerUpsampling = false →
      (getBestAvailableTileKey env self key considerUpsampling).1.levelOfDetail
        ≤ self._maxDataLevel.value) ∧
    ((getBestAvailableTileKey env self key considerUpsampling).1.levelOfDetail
        ≤ self._maxDataLevel.value ∨
      ∃ de ∈ hitExtents env self key, de.maxLevel.has_value = true ∧
        de.maxLevel.value < localLOD env self key ∧
        (getBestAvailableTileKey env self key considerUpsampling).1.levelOfDetail
          ≤ de.maxLevel.value) := by
  rcases getBestAvailableTileKey_shape env self key considerUpsampling with
    h | h | ⟨hh, hhh, h⟩
  · rw [h] at hvalid
    simp [TileKey.INVALID_valid] at hvalid
  · rw [h] at hvalid ⊢
    rw [mdlLimitedKey_of_gt key hlod] at hvalid ⊢
    obtain ⟨_, hEq⟩ := TileKey.createAncestorKey_valid key hvalid
    rw [hEq]
    exact ⟨fun _ => Nat.le_refl _, Or.inl (Nat.le_refl _)⟩
  · rw [h] at hvalid ⊢
    obtain ⟨_, hEq⟩ := TileKey.createAncestorKey_valid key hvalid
    rw [hEq]
    constructor
    · intro hup
      rw [hup]
      simp only [Bool.false_eq_true, if_false]
      exact Nat.le_trans (Nat.min_le_right _ _) (Nat.min_le_right _ _)
    · cases hup : upsampling self considerUpsampling
      · left
        simp only [Bool.false_eq_true, if_false]
        exact Nat.le_trans (Nat.min_le_right _ _) (Nat.min_le_right _ _)
      · simp only [if_true]
        rcases Nat.le_total hh self._maxDataLevel.value with hle | hle
        · left
          rw [Nat.max_eq_right hle]
          exact Nat.min_le_right _ _
        · rw [Nat.max_eq_left hle]
          rcases hhh with h0 | ⟨de, hde, hset, hlt, hEq2⟩
          · left
            rw [h0]
            exact Nat.le_trans (Nat.min_le_right _ _) (Nat.zero_le _)
          · right
            refine ⟨de, hde, hset, hlt, ?_⟩
            rw [hEq2]
            exact Nat.min_le_right _ _

/-- C3 on explicit inputs: without upsampling, the layer of the counterexample serves the
key at level 10 by its ancestor at level 5 = MDL. -/
theorem getBestAvailableTileKey_mdl_clamp_witness :
    (getBestAvailableTileKey Sample.env
        { Sample.layer with _dataExtents := [Sample.quarterExtent],
                            _maxDataLevel := ⟨true, 5⟩, _upsample := ⟨true, true⟩ }
        ⟨10, 1500, 100, Sample.profile21⟩ false).1.levelOfDetail ≤ 5 :=
  (getBestAvailableTileKey_mdl_clamp Sample.env
      { Sample.layer with _dataExtents := [Sample.quarterExtent],
                          _maxDataLevel := ⟨true, 5⟩, _upsample := ⟨true, true⟩ }
      ⟨10, 1500, 100, Sample.profile21⟩ false (by decide) (by decide)).1 (by decide)

/-- C4 as stated fails: the sample layer over the 2 × 1 profile with MDL 3 and a
world-wide extent without level bounds, asked for the key (2, 3, 1) of the 8 × 4 profile,
whose local LOD is 4. The key passes the gates, intersects the union and has an accepting
hit, its local LOD is above MDL, `createAncestorKey(3)` of a level-2 key is INVALID, and the
call returns the level-0 ancestor instead. -/
theorem getBestAvailableTileKey_accepting_hit_counterexample :
    isKeyInVisualRange Sample.env
        { Sample.layer with _maxDataLevel := ⟨true, 3⟩, _dataExtents := [Sample.worldExtent] }
        ⟨2, 3, 1, Sample.profile84⟩ = true ∧
    Sample.env.intersects
        (getDataExtentsUnion Sample.env
          { Sample.layer with _maxDataLevel := ⟨true, 3⟩,
                              _dataExtents := [Sample.worldExtent] }).1.toGeoExtent
        (Sample.env.extent ⟨2, 3, 1, Sample.profile84⟩) = true ∧
    (∃ de ∈ hitExtents Sample.env
        { Sample.layer with _maxDataLevel := ⟨true, 3⟩, _dataExtents := [Sample.worldExtent] }
        ⟨2, 3, 1, Sample.profile84⟩,
      (de.minLevel.has_value = false ∨ de.minLevel.value ≤ 4) ∧
        (de.maxLevel.has_value = false ∨ 4 ≤ de.maxLevel.value)) ∧
    localLOD Sample.env
        { Sample.layer with _maxDataLevel := ⟨true, 3⟩, _dataExtents := [Sample.worldExtent] }
        ⟨2, 3, 1, Sample.profile84⟩ = 4 ∧
    TileKey.createAncestorKey ⟨2, 3, 1, Sample.profile84⟩ 3 = TileKey.INVALID ∧
    (getBestAvailableTileKey Sample.env
        { Sample.layer with _maxDataLevel := ⟨true, 3⟩, _dataExtents := [Sample.worldExtent] }
        ⟨2, 3, 1, Sample.profile84⟩ false).1 = ⟨0, 0, 0, Sample.profile84⟩ ∧
    (getBestAvailableTileKey Sample.env
        { Sample.layer with _maxDataLevel := ⟨true, 3⟩, _dataExtents := [Sample.worldExtent] }
        ⟨2, 3, 1, Sample.profile84⟩ false).1 ≠
      TileKey.createAncestorKey ⟨2, 3, 1, Sample.profile84⟩ 3 := by
  refine ⟨by decide, by decide, ⟨Sample.worldExtent, by decide, by decide⟩, by decide,
    by decide, by decide, by decide⟩

/-- C4 (amended): accepting hit. For a key that passes the level and resolution gates and
whose extent intersects the data-extents union, if some indexed data extent hit by the
key's rectangle has (`minLevel` absent or `minLevel ≤ localLOD`) and (`maxLevel` absent or
`localLOD ≤ maxLevel`), then the result is the key when `localLOD ≤ MDL`, and
`key.createAncestorKey(MDL)` when `localLOD > MDL`, provided in the latter case that this
ancestor exists (`MDL ≤ key.lod`, which always holds when the local LOD is the key's own
level); for both values of `considerUpsampling`. -/
theorem getBestAvailableTileKey_accepting_hit (env : Env) (self : TileLayer)
    (key : TileKey) (considerUpsampling : Bool)
    (hgates : isKeyInVisualRange env self key = true)
    (hunion : env.intersects (getDataExtentsUnion env self).1.toGeoExtent (env.extent key)
      = true)
    (haccept : ∃ de ∈ hitExtents env self key,
      (de.minLevel.has_value = false ∨ de.minLevel.value ≤ localLOD env self key) ∧
        (de.maxLevel.has_value = false ∨ localLOD env self key ≤ de.maxLevel.value)) :
    (localLOD env self key ≤ self._maxDataLevel.value →
      (getBestAvailableTileKey env self key considerUpsampling).1 = key) ∧
    (localLOD env self key > self._maxDataLevel.value →
      self._maxDataLevel.value ≤ key.levelOfDetail →
      (getBestAvailableTileKey env self key considerUpsampling).1 =
        key.createAncestorKey self._maxDataLevel.value) := by
  have hkv : key.valid = true := ((isKeyInVisualRange_eq_true_iff env self key).1 hgates).1
  have hres : ∀ best : TileKey, best.valid = true →
      best = mdlLimitedKey key (localLOD env self key) self._maxDataLevel.value →
      (getBestAvailableTileKey env self key considerUpsampling).1 = best := by
    intro best hbv hbest
    by_cases hempty : self._dataExtents = []
    · rw [getBestAvailableTileKey_empty env self key considerUpsampling hempty hgates, hbest]
    · rw [getBestAvailableTileKey_search env self key considerUpsampling hgates hempty hunion,
        afterSearch_eq]
      have hacc : ∃ de ∈ hitExtents env self key,
          acceptsLevel (localLOD env self key) de = true := by
        obtain ⟨de, hde, h⟩ := haccept
        exact ⟨de, hde, (acceptsLevel_eq_true_iff _ de).2 h⟩
      obtain ⟨hb, _⟩ := visitAll_accept key (localLOD env self key)
        self._maxDataLevel.value (hitExtents env self key) ⟨TileKey.INVALID, false, 0⟩ hacc
      rw [hb, ← hbest, if_pos hbv]
  constructor
  · intro hle
    exact hres key hkv (mdlLimitedKey_of_le key hle).symm
  · intro hgt hanc
    apply hres _ _ (mdlLimitedKey_of_gt key hgt).symm
    have hp := (TileKey.createAncestorKey_of_le key hanc).2
    unfold TileKey.valid
    rw [hp]
    exact hkv

/-- C4 on explicit inputs (scenario S1): one world-spanning extent without level bounds, no
gates, MDL 5. A key at level 4 is returned unchanged, and a key at level 8 = MDL + 3 yields
its ancestor at level 5. -/
theorem getBestAvailableTileKey_accepting_hit_witness :
    (getBestAvailableTileKey Sample.env
        { Sample.layer with _maxDataLevel := ⟨true, 5⟩, _dataExtents := [Sample.worldExtent] }
        ⟨4, 7, 3, Sample.profile21⟩ false).1 = ⟨4, 7, 3, Sample.profile21⟩ ∧
    (getBestAvailableTileKey Sample.env
        { Sample.layer with _maxDataLevel := ⟨true, 5⟩, _dataExtents := [Sample.worldExtent] }
        ⟨8, 100, 77, Sample.profile21⟩ true).1 = ⟨5, 12, 9, Sample.profile21⟩ :=
  ⟨(getBestAvailableTileKey_accepting_hit Sample.env
      { Sample.layer with _maxDataLevel := ⟨true, 5⟩, _dataExtents := [Sample.worldExtent] }
      ⟨4, 7, 3, Sample.profile21⟩ false (by decide) (by decide)
      ⟨Sample.worldExtent, by decide, by decide⟩).1 (by decide),
   ((getBestAvailableTileKey_accepting_hit Sample.env
      { Sample.layer with _maxDataLevel := ⟨true, 5⟩, _dataExtents := [Sample.worldExtent] }
      ⟨8, 100, 77, Sample.profile21⟩ true (by decide) (by decide)
      ⟨Sample.worldExtent, by decide, by decide⟩).2 (by decide) (by decide)).trans
      (by decide)⟩

/-- C5: fallback to the deepest available level. For a key that passes the gates and whose
search is reached (non-empty extent list, union intersecting the key's extent), when at
least one hit extent passes the `minLevel` test and every such hit has its `maxLevel` set
and below the local LOD, the result is `key.createAncestorKey(min(key.lod, M))`, where `H`
is the largest `maxLevel` among those hits and `M = max(H, MDL)` when upsampling is in
effect and `M = min(H, MDL)` otherwise. -/
theorem getBestAvailableTileKey_deepest_available (env : Env) (self : TileLayer)
    (key : TileKey) (considerUpsampling : Bool) (H : Nat)
    (hgates : isKeyInVisualRange env self key = true)
    (hnonempty : self._dataExtents ≠ [])
    (hunion : env.intersects (getDataExtentsUnion env self).1.toGeoExtent (env.extent key)
      = true)
    (hbelow : ∀ de ∈ hitExtents env self key,
      passesMinLevel (localLOD env self key) de = true →
        de.maxLevel.has_value = true ∧ de.maxLevel.value < localLOD env self key)
    (hattained : ∃ de ∈ hitExtents env self key,
      passesMinLevel (localLOD env self key) de = true ∧ de.maxLevel.value = H)
    (hlargest : ∀ de ∈ hitExtents env self key,
      passesMinLevel (localLOD env self key) de = true → de.maxLevel.value ≤ H) :
    (getBestAvailableTileKey env self key considerUpsampling).1 =
      key.createAncestorKey (min key.levelOfDetail
        (if upsampling self considerUpsampling = true then max H self._maxDataLevel.value
         else min H self._maxDataLevel.value)) := by
  rw [getBestAvailableTileKey_search env self key considerUpsampling hgates hnonempty hunion]
  have hno : ∀ de ∈ hitExtents env self key,
      acceptsLevel (localLOD env self key) de = false := by
    intro de hde
    cases hp : passesMinLevel (localLOD env self key) de
    · simp [acceptsLevel, hp]
    · obtain ⟨hset, hlt⟩ := hbelow de hde hp
      simp [acceptsLevel, hp, hset, hlt]
  rw [visitAll_no_accept _ _ _ _ _ hno]
  have hany : (hitExtents env self key).any (passesMinLevel (localLOD env self key))
      = true := by
    obtain ⟨de, hde, hp, _⟩ := hattained
    exact List.any_eq_true.2 ⟨de, hde, hp⟩
  rw [highestMaxLevel_eq _ _ H hattained hlargest, afterSearch_eq]
  simp only [TileKey.INVALID_valid, hany, Bool.false_or, Bool.false_eq_true, if_false, if_true]

/-- C5 on explicit inputs (scenario S2): one extent with `maxLevel` 8 and a key at level 10
inside it. Without upsampling the result is the ancestor at level 8; with `upsample` true
and MDL 12 the result is the key itself. -/
theorem getBestAvailableTileKey_deepest_available_witness :
    (getBestAvailableTileKey Sample.env
        { Sample.layer with _dataExtents := [Sample.quarterExtent] }
        ⟨10, 1500, 100, Sample.profile21⟩ false).1 = ⟨8, 375, 25, Sample.profile21⟩ ∧
    (getBestAvailableTileKey Sample.env
        { Sample.layer with _dataExtents := [Sample.quarterExtent],
                            _maxDataLevel := ⟨true, 12⟩, _upsample := ⟨true, true⟩ }
        ⟨10, 1500, 100, Sample.profile21⟩ true).1 = ⟨10, 1500, 100, Sample.profile21⟩ :=
  ⟨(getBestAvailableTileKey_deepest_available Sample.env
      { Sample.layer with _dataExtents := [Sample.quarterExtent] }
      ⟨10, 1500, 100, Sample.profile21⟩ false 8
      (by decide) (by decide) (by decide) (by decide) (by decide) (by decide)).trans
      (by decide),
   (getBestAvailableTileKey_deepest_available Sample.env
      { Sample.layer with _dataExtents := [Sample.quarterExtent],
                          _maxDataLevel := ⟨true, 12⟩, _upsample := ⟨true, true⟩ }
      ⟨10, 1500, 100, Sample.profile21⟩ true 8
      (by decide) (by decide) (by decide) (by decide) (by decide) (by decide)).trans
      (by decide)⟩

/-- C6: on a layer with an empty data-extent list, a key that passes the level and
resolution gates is returned unchanged when its local LOD is at most MDL, and is replaced
by `key.createAncestorKey(MDL)` when its local LOD is above MDL, for both values of
`considerUpsampling`. -/
theorem getBestAvailableTileKey_no_data_extents (env : Env) (self : TileLayer)
    (key : TileKey) (considerUpsampling : Bool)
    (hempty : self._dataExtents = [])
    (hgates : isKeyInVisualRange env self key = true) :
    (localLOD env self key ≤ self._maxDataLevel.value →
      (getBestAvailableTileKey env self key considerUpsampling).1 = key) ∧
    (localLOD env self key > self._maxDataLevel.value →
      (getBestAvailableTileKey env self key considerUpsampling).1 =
        key.createAncestorKey self._maxDataLevel.value) := by
  obtain ⟨hv, hl, hr⟩ := (isKeyInVisualRange_eq_true_iff env self key).1 hgates
  rw [getBestAvailableTileKey_fst]
  simp only [hv, hl, hr, hempty, Bool.true_eq_false, Bool.false_eq_true, if_false, if_true,
    mdlLimitedKey]
  constructor
  · intro h
    rw [if_neg (Nat.not_lt.mpr h)]
  · intro h
    rw [if_pos h]

/-- C6 on explicit inputs: the sample layer without data extents and with `maxDataLevel`
set to 5 returns a key at level 4 unchanged and maps a key at level 8 to its ancestor at
level 5. -/
theorem getBestAvailableTileKey_no_data_extents_witness :
    (getBestAvailableTileKey Sample.env { Sample.layer with _maxDataLevel := ⟨true, 5⟩ }
        ⟨4, 7, 3, Sample.profile21⟩ false).1 = ⟨4, 7, 3, Sample.profile21⟩ ∧
    (getBestAvailableTileKey Sample.env { Sample.layer with _maxDataLevel := ⟨true, 5⟩ }
        ⟨8, 100, 77, Sample.profile21⟩ true).1 = ⟨5, 12, 9, Sample.profile21⟩ :=
  ⟨(getBestAvailableTileKey_no_data_extents Sample.env
      { Sample.layer with _maxDataLevel := ⟨true, 5⟩ } ⟨4, 7, 3, Sample.profile21⟩ false rfl
      (by decide)).1 (by decide),
   ((getBestAvailableTileKey_no_data_extents Sample.env
      { Sample.layer with _maxDataLevel := ⟨true, 5⟩ } ⟨8, 100, 77, Sample.profile21⟩ true rfl
      (by decide)).2 (by decide)).trans (by decide)⟩

/-- C7: a key that `isKeyInVisualRange` rejects (an invalid key, a local LOD outside the
level limits that are set, or a resolution limit rejecting it) is mapped to
`TileKey::INVALID` by `getBestAvailableTileKey`, for both values of `considerUpsampling`
and whatever the data extents and caches of the layer are. -/
theorem getBestAvailableTileKey_not_in_visual_range (env : Env) (self : TileLayer)
    (key : TileKey) (considerUpsampling : Bool)
    (h : isKeyInVisualRange env self key = false) :
    (getBestAvailableTileKey env self key considerUpsampling).1 = TileKey.INVALID := by
  rw [getBestAvailableTileKey_fst]
  rcases (isKeyInVisualRange_eq_false_iff env self key).1 h with h1 | h1 | h1
  · simp [h1]
  · simp [h1]
  · simp [h1]

/-- C7 on explicit inputs: with `minLevel` set to 5 on the sample layer holding a
world-wide data extent, a key at level 3 is out of visual range and mapped to INVALID. -/
theorem getBestAvailableTileKey_not_in_visual_range_witness :
    isKeyInVisualRange Sample.env
        { Sample.layer with _minLevel := ⟨true, 5⟩, _dataExtents := [Sample.worldExtent] }
        ⟨3, 2, 1, Sample.profile21⟩ = false ∧
    (getBestAvailableTileKey Sample.env
        { Sample.layer with _minLevel := ⟨true, 5⟩, _dataExtents := [Sample.worldExtent] }
        ⟨3, 2, 1, Sample.profile21⟩ true).1 = TileKey.INVALID :=
  ⟨by decide, getBestAvailableTileKey_not_in_visual_range Sample.env _ _ true (by decide)⟩

/-- C8: on a layer with a non-empty data-extent list, a key whose extent does not intersect
`getDataExtentsUnion()` is mapped to `TileKey::INVALID`, for both values of
`considerUpsampling` and whatever the levels of the extents are. -/
theorem getBestAvailableTileKey_no_overlap (env : Env) (self : TileLayer)
    (key : TileKey) (considerUpsampling : Bool)
    (hnonempty : self._dataExtents ≠ [])
    (hdisjoint : env.intersects (getDataExtentsUnion env self).1.toGeoExtent
      (env.extent key) = false) :
    (getBestAvailableTileKey env self key considerUpsampling).1 = TileKey.INVALID := by
  rw [getBestAvailableTileKey_fst]
  simp only [hnonempty, hdisjoint, if_false, if_true]
  split_ifs <;> rfl

/-- C8 on explicit inputs: with one data extent over a quarter of the sample world, a key
over the opposite quarter is mapped to INVALID. -/
theorem getBestAvailableTileKey_no_overlap_witness :
    (getBestAvailableTileKey Sample.env
        { Sample.layer with _dataExtents := [Sample.quarterExtent] }
        ⟨10, 100, 700, Sample.profile21⟩ true).1 = TileKey.INVALID :=
  getBestAvailableTileKey_no_overlap Sample.env
    { Sample.layer with _dataExtents := [Sample.quarterExtent] }
    ⟨10, 100, 700, Sample.profile21⟩ true (by decide) (by decide)

/-- C9: `isKeyInLegalRange(key)` is false exactly when the key is invalid, or `minLevel` is
set and the local LOD is below it, or `maxLevel` is set and the local LOD is above it, or
`maxDataLevel` is set and the local LOD is above it, or the layer profile is valid and
`maxResolution` is set and greater than `resLayer` or `minResolution` is set and smaller
than `resLayer`; and with an invalid layer profile the resolution limits never reject. -/
theorem isKeyInLegalRange_eq_false_iff (env : Env) (self : TileLayer) (key : TileKey) :
    (isKeyInLegalRange env self key = false ↔
      key.valid = false ∨
      (self._minLevel.has_value = true ∧ localLOD env self key < self._minLevel.value) ∨
      (self._maxLevel.has_value = true ∧ localLOD env self key > self._maxLevel.value) ∨
      (self._maxDataLevel.has_value = true ∧
        localLOD env self key > self._maxDataLevel.value) ∨
      (self._profile.valid = true ∧
        ((self._maxResolution.has_value = true ∧
            self._maxResolution.value > resLayer env self key) ∨
          (self._minResolution.has_value = true ∧
            self._minResolution.value < resLayer env self key)))) ∧
    (self._profile.valid = false → resolutionLimitsReject env self key = false) := by
  constructor
  · have hL := levelLimitsReject_eq_true_iff self (localLOD env self key)
    have hR := resolutionLimitsReject_eq_true_iff env self key
    have hK : isKeyInLegalRange env self key = false ↔
        key.valid = false ∨ levelLimitsReject self (localLOD env self key) = true ∨
          (self._maxDataLevel.has_value = true ∧
            localLOD env self key > self._maxDataLevel.value) ∨
          resolutionLimitsReject env self key = true := by
      unfold isKeyInLegalRange
      cases key.valid <;> cases levelLimitsReject self (localLOD env self key) <;>
        cases resolutionLimitsReject env self key <;>
        cases self._maxDataLevel.has_value <;> simp
    rw [hK, hL, hR]
    simp only [or_assoc]
  · intro h
    cases hr : resolutionLimitsReject env self key
    · rfl
    · rw [resolutionLimitsReject_eq_true_iff] at hr
      rw [h] at hr
      simp at hr

/-- C9 on explicit inputs: on the sample layer with `maxDataLevel` set to 5 and
`maxResolution` set to `2^110`, a key at level 8 is rejected by the `maxDataLevel` limit
alone, a key at level 4 by the resolution limit alone, and a key at level 0 is legal. -/
theorem isKeyInLegalRange_eq_false_iff_witness :
    isKeyInLegalRange Sample.env
        { Sample.layer with _maxDataLevel := ⟨true, 5⟩ } ⟨8, 100, 77, Sample.profile21⟩
      = false ∧
    isKeyInLegalRange Sample.env
        { Sample.layer with _maxResolution := ⟨true, ((2 ^ 110 : Nat) : ℚ)⟩ }
        ⟨4, 3, 1, Sample.profile21⟩ = false ∧
    isKeyInLegalRange Sample.env
        { Sample.layer with _maxResolution := ⟨true, ((2 ^ 110 : Nat) : ℚ)⟩,
                            _maxDataLevel := ⟨true, 5⟩ }
        ⟨0, 1, 0, Sample.profile21⟩ = true := by
  refine ⟨?_, ?_, ?_⟩
  · exact (isKeyInLegalRange_eq_false_iff Sample.env _ _).1.2
      (Or.inr (Or.inr (Or.inr (Or.inl (by decide)))))
  · exact (isKeyInLegalRange_eq_false_iff Sample.env _ _).1.2
      (Or.inr (Or.inr (Or.inr (Or.inr (by decide)))))
  · decide

/-- C10: `mayHaveData(key)` is true exactly when `getBestAvailableTileKey(key, true)`
equals `key`; consequently it is false for every key (other than the sentinel INVALID
itself, which is mapped to itself) that `getBestAvailableTileKey` maps to INVALID, and for
every key that it maps to a strict ancestor. -/
theorem mayHaveData_iff (env : Env) (self : TileLayer) (key : TileKey) :
    ((mayHaveData env self key).1 = true ↔
      (getBestAvailableTileKey env self key true).1 = key) ∧
    ((getBestAvailableTileKey env self key true).1 = TileKey.INVALID →
      key ≠ TileKey.INVALID → (mayHaveData env self key).1 = false) ∧
    (∀ l : Nat, l < key.levelOfDetail →
      (getBestAvailableTileKey env self key true).1 = key.createAncestorKey l →
      (mayHaveData env self key).1 = false) := by
  have hiff : (mayHaveData env self key).1 = true ↔
      (getBestAvailableTileKey env self key true).1 = key := by
    unfold mayHaveData
    simp only [decide_eq_true_eq]
    exact eq_comm
  have hfalse : (getBestAvailableTileKey env self key true).1 ≠ key →
      (mayHaveData env self key).1 = false := by
    intro hne
    cases hm : (mayHaveData env self key).1
    · rfl
    · exact absurd (hiff.1 hm) hne
  refine ⟨hiff, ?_, ?_⟩
  · intro hinv hkey
    apply hfalse
    rw [hinv]
    exact fun h => hkey h.symm
  · intro l hl hanc
    apply hfalse
    rw [hanc]
    intro h
    have h1 := (TileKey.createAncestorKey_of_le key (Nat.le_of_lt hl)).1
    rw [h] at h1
    exact absurd h1 (Nat.ne_of_gt hl)

/-- C10 on explicit inputs: on the sample layer with one extent whose data stops at level
8, `mayHaveData` is false for the key at level 10 inside the extent (served by a strict
ancestor), false for a key outside the extent (mapped to INVALID), and true for the
ancestor at level 8. -/
theorem mayHaveData_iff_witness :
    (mayHaveData Sample.env { Sample.layer with _dataExtents := [Sample.quarterExtent] }
        ⟨10, 1500, 100, Sample.profile21⟩).1 = false ∧
    (mayHaveData Sample.env { Sample.layer with _dataExtents := [Sample.quarterExtent] }
        ⟨10, 100, 700, Sample.profile21⟩).1 = false ∧
    (mayHaveData Sample.env { Sample.layer with _dataExtents := [Sample.quarterExtent] }
        ⟨8, 375, 25, Sample.profile21⟩).1 = true :=
  ⟨(mayHaveData_iff Sample.env { Sample.layer with _dataExtents := [Sample.quarterExtent] }
      ⟨10, 1500, 100, Sample.profile21⟩).2.2 8 (by decide) (by decide),
   (mayHaveData_iff Sample.env { Sample.layer with _dataExtents := [Sample.quarterExtent] }
      ⟨10, 100, 700, Sample.profile21⟩).2.1 (by decide) (by decide),
   (mayHaveData_iff Sample.env { Sample.layer with _dataExtents := [Sample.quarterExtent] }
      ⟨8, 375, 25, Sample.profile21⟩).1.2 (by decide)⟩

end TileLayer

end Rocky

/-! ## Further facts: setters, union levels, index build, metadata -/

namespace Rocky

namespace TileLayer

/-- C11: the answer is always the key or one of its ancestors. For every layer, key `k` and
flag `u`, `getBestAvailableTileKey(k, u)` is `TileKey::INVALID`, or `k` itself, or
`k.createAncestorKey(L)` for some `L ≤ k.lod`; hence a valid answer is never deeper than
`k`, lies in the profile of `k`, and has the tile coordinates of `k` shifted right by the
difference of the levels. -/
theorem getBestAvailableTileKey_key_or_ancestor (env : Env) (self : TileLayer)
    (key : TileKey) (considerUpsampling : Bool) :
    ((getBestAvailableTileKey env self key considerUpsampling).1 = TileKey.INVALID ∨
      (getBestAvailableTileKey env self key considerUpsampling).1 = key ∨
      ∃ L : Nat, L ≤ key.levelOfDetail ∧
        (getBestAvailableTileKey env self key considerUpsampling).1 =
          key.createAncestorKey L) ∧
    ((getBestAvailableTileKey env self key considerUpsampling).1.valid = true →
      (getBestAvailableTileKey env self key considerUpsampling).1.levelOfDetail
          ≤ key.levelOfDetail ∧
        (getBestAvailableTileKey env self key considerUpsampling).1.profile = key.profile ∧
        (getBestAvailableTileKey env self key considerUpsampling).1.tileX =
          key.tileX >>> (key.levelOfDetail -
            (getBestAvailableTileKey env self key considerUpsampling).1.levelOfDetail) ∧
        (getBestAvailableTileKey env self key considerUpsampling).1.tileY =
          key.tileY >>> (key.levelOfDetail -
            (getBestAvailableTileKey env self key considerUpsampling).1.levelOfDetail)) := by
  have hshape : (getBestAvailableTileKey env self key considerUpsampling).1 = TileKey.INVALID ∨
      ∃ L : Nat, L ≤ key.levelOfDetail ∧
        (getBestAvailableTileKey env self key considerUpsampling).1 =
          key.createAncestorKey L := by
    rcases getBestAvailableTileKey_shape env self key considerUpsampling with
      h | h | ⟨hh, _, h⟩
    · exact Or.inl h
    · by_cases hgt : localLOD env self key > self._maxDataLevel.value
      · rw [mdlLimitedKey_of_gt key hgt] at h
        by_cases hle : self._maxDataLevel.value ≤ key.levelOfDetail
        · exact Or.inr ⟨_, hle, h⟩
        · left
          rw [h]
          exact TileKey.createAncestorKey_of_gt key (Nat.not_le.mp hle)
      · rw [mdlLimitedKey_of_le key (Nat.not_lt.mp hgt)] at h
        exact Or.inr ⟨key.levelOfDetail, Nat.le_refl _,
          h.trans (TileKey.createAncestorKey_self key).symm⟩
    · exact Or.inr ⟨_, Nat.min_le_left _ _, h⟩
  constructor
  · rcases hshape with h | ⟨L, hL, h⟩
    · exact Or.inl h
    · exact Or.inr (Or.inr ⟨L, hL, h⟩)
  · intro hvalid
    rcases hshape with h | ⟨L, hL, h⟩
    · rw [h] at hvalid
      simp [TileKey.INVALID_valid] at hvalid
    · rw [h]
      simp [TileKey.createAncestorKey, Nat.not_lt.mpr hL, hL]

/-- C11 on explicit inputs: the level-10 key of scenario S2 is answered by its ancestor at
level 8, whose coordinates are those of the key shifted right by two. -/
theorem getBestAvailableTileKey_key_or_ancestor_witness :
    (getBestAvailableTileKey Sample.env
        { Sample.layer with _dataExtents := [Sample.quarterExtent] }
        ⟨10, 1500, 100, Sample.profile21⟩ false).1 =
      TileKey.createAncestorKey ⟨10, 1500, 100, Sample.profile21⟩ 8 ∧
    (getBestAvailableTileKey Sample.env
        { Sample.layer with _dataExtents := [Sample.quarterExtent] }
        ⟨10, 1500, 100, Sample.profile21⟩ false).1.tileX = 1500 >>> (10 - 8) :=
  ⟨by decide,
   by
    have h := ((getBestAvailableTileKey_key_or_ancestor Sample.env
      { Sample.layer with _dataExtents := [Sample.quarterExtent] }
      ⟨10, 1500, 100, Sample.profile21⟩ false).2 (by decide)).2.2.1
    rw [h]
    decide⟩

end TileLayer

end Rocky

namespace Rocky

namespace GeometryKey

theorem lt_iff_lexLt (a b : GeometryKey) : lt a b = true ↔ lexLt a b := by
  unfold lt lexLt
  rcases Int.lt_trichotomy a.lod b.lod with h1 | h1 | h1
  · simp [h1]
  · rcases Int.lt_trichotomy a.tileY b.tileY with h2 | h2 | h2
    · simp [h1, h2]
    · rcases Nat.lt_trichotomy a.size b.size with h3 | h3 | h3
      · simp [h1, h2, h3]
      · cases ha : a.patch <;> cases hb : b.patch <;> simp [h1, h2, h3]
      · simp [h1, h2, h3, Nat.lt_asymm h3, Nat.ne_of_gt h3]
    · simp [h1, h2, Int.lt_asymm h2, Int.ne_of_gt h2]
  · simp [h1, Int.lt_asymm h1, Int.ne_of_gt h1]

theorem eq_iff (a b : GeometryKey) :
    eq a b = true ↔
      a.lod = b.lod ∧ a.tileY = b.tileY ∧ a.size = b.size ∧ a.patch = b.patch := by
  unfold eq
  simp [and_assoc]

theorem eq_iff_eq (a b : GeometryKey) : eq a b = true ↔ a = b := by
  rw [eq_iff]
  constructor
  · rintro ⟨h1, h2, h3, h4⟩
    cases a
    cases b
    simp_all
  · rintro rfl
    exact ⟨rfl, rfl, rfl, rfl⟩

theorem lexLt_irrefl (a : GeometryKey) : ¬ lexLt a a := by
  unfold lexLt
  cases ha : a.patch <;> simp

theorem lexLt_trans (a b c : GeometryKey) (h1 : lexLt a b) (h2 : lexLt b c) :
    lexLt a c := by
  unfold lexLt at *
  cases ha : a.patch <;> cases hb : b.patch <;> cases hc : c.patch <;>
    simp only [ha, hb, hc, Bool.false_eq_true, Bool.true_eq_false, and_false, and_true,
      or_false, and_self] at h1 h2 ⊢ <;> omega

theorem lexLt_total (a b : GeometryKey) : lexLt a b ∨ a = b ∨ lexLt b a := by
  rw [← eq_iff_eq, eq_iff]
  unfold lexLt
  cases ha : a.patch <;> cases hb : b.patch <;>
    simp only [Bool.false_eq_true, Bool.true_eq_false, and_false, and_true,
      or_false, and_self] <;> omega

/-- C16: `operator==` holds exactly when `lod`, `tileY`, `size` and `patch` are all equal
(that is, when the keys are equal); `operator<` is the lexicographic strict order on
`(lod, tileY, size, patch)` with `false < true`; for every pair of keys exactly one of
`a < b`, `a == b`, `b < a` holds; and `operator<` is transitive. -/
theorem operators_total_order :
    (∀ a b : GeometryKey, eq a b = true ↔
      a.lod = b.lod ∧ a.tileY = b.tileY ∧ a.size = b.size ∧ a.patch = b.patch) ∧
    (∀ a b : GeometryKey, lt a b = true ↔ lexLt a b) ∧
    (∀ a b : GeometryKey,
      (lt a b = true ∧ eq a b = false ∧ lt b a = false) ∨
      (lt a b = false ∧ eq a b = true ∧ lt b a = false) ∨
      (lt a b = false ∧ eq a b = false ∧ lt b a = true)) ∧
    (∀ a b c : GeometryKey, lt a b = true → lt b c = true → lt a c = true) := by
  refine ⟨eq_iff, lt_iff_lexLt, ?_, ?_⟩
  · intro a b
    have hab : lt a b = false ↔ ¬ lexLt a b := by
      rw [← lt_iff_lexLt]
      simp
    have hba : lt b a = false ↔ ¬ lexLt b a := by
      rw [← lt_iff_lexLt]
      simp
    have he : eq a b = false ↔ ¬ a = b := by
      rw [← eq_iff_eq]
      simp
    rw [hab, hba, he, lt_iff_lexLt, lt_iff_lexLt, eq_iff_eq]
    rcases lexLt_total a b with h | h | h
    · refine Or.inl ⟨h, ?_, ?_⟩
      · rintro rfl
        exact lexLt_irrefl a h
      · intro h2
        exact lexLt_irrefl a (lexLt_trans a b a h h2)
    · refine Or.inr (Or.inl ⟨?_, h, ?_⟩)
      · rw [h]
        exact lexLt_irrefl b
      · rw [h]
        exact lexLt_irrefl b
    · refine Or.inr (Or.inr ⟨?_, ?_, h⟩)
      · intro h2
        exact lexLt_irrefl a (lexLt_trans a b a h2 h)
      · rintro rfl
        exact lexLt_irrefl a h
  · intro a b c
    rw [lt_iff_lexLt, lt_iff_lexLt, lt_iff_lexLt]
    exact lexLt_trans a b c

end GeometryKey

end Rocky

namespace Rocky

namespace TileLayer

/-- The six setters that write `_reopenRequired` leave it true, for every argument. -/
theorem setters_reopenRequired (self : TileLayer) (n : Nat) (q : ℚ) :
    (setMinLevel self n)._reopenRequired = true ∧
    (setMaxLevel self n)._reopenRequired = true ∧
    (setMinResolution self q)._reopenRequired = true ∧
    (setMaxResolution self q)._reopenRequired = true ∧
    (setMaxDataLevel self n)._reopenRequired = true ∧
    (setTileSize self n)._reopenRequired = true :=
  ⟨rfl, rfl, rfl, rfl, rfl, rfl⟩

/-- The setter `setUpsample` leaves `_reopenRequired` as it was and stores `true` whatever
its argument. -/
theorem setUpsample_eq (self : TileLayer) (value : Bool) :
    (setUpsample self value)._reopenRequired = self._reopenRequired ∧
      (setUpsample self value)._upsample = ⟨true, true⟩ :=
  ⟨rfl, rfl⟩

/-- C18 at the failing input: on the sample layer, whose `_reopenRequired` is false,
`setMinLevel`, `setMaxLevel`, `setMinResolution`, `setMaxResolution`, `setMaxDataLevel` and
`setTileSize` leave the flag true, but after `setUpsample(false)` the flag is still false
(and `upsample` holds `true`). -/
theorem setUpsample_reopenRequired_failing :
    Sample.layer._reopenRequired = false ∧
    (setMinLevel Sample.layer 3)._reopenRequired = true ∧
    (setMaxLevel Sample.layer 3)._reopenRequired = true ∧
    (setMinResolution Sample.layer 3)._reopenRequired = true ∧
    (setMaxResolution Sample.layer 3)._reopenRequired = true ∧
    (setMaxDataLevel Sample.layer 3)._reopenRequired = true ∧
    (setTileSize Sample.layer 3)._reopenRequired = true ∧
    (setUpsample Sample.layer false)._reopenRequired = false ∧
    (setUpsample Sample.layer false)._upsample = ⟨true, true⟩ :=
  ⟨rfl, rfl, rfl, rfl, rfl, rfl, rfl, rfl, rfl⟩

end TileLayer

end Rocky

namespace Rocky

namespace TileLayer

/-! ### Levels of the data-extents union -/

theorem unionStep_minLevel (env : Env) (u de : DataExtent) :
    (unionStep env u de).minLevel = minLevelStep u.minLevel de := by
  unfold unionStep minLevelStep
  cases de.minLevel.has_value <;> cases de.maxLevel.has_value <;> rfl

theorem foldl_unionStep_minLevel (env : Env) (first : DataExtent) (rest : List DataExtent) :
    (rest.foldl (unionStep env) first).minLevel = rest.foldl minLevelStep first.minLevel := by
  induction rest generalizing first with
  | nil => rfl
  | cons de rest ih => rw [List.foldl_cons, List.foldl_cons, ih, unionStep_minLevel]

/-- The union computed by `getDataExtentsUnion` when the cached union is not valid. -/
theorem getDataExtentsUnion_of_invalid (env : Env) (self : TileLayer) (first : DataExtent)
    (rest : List DataExtent) (hlist : self._dataExtents = first :: rest)
    (hcache : self._dataExtentsUnion.valid = false) :
    (getDataExtentsUnion env self).1 = computeUnion env self first rest := by
  rw [getDataExtentsUnion_fst, hlist]
  simp only [hcache, if_true]

theorem computeUnion_minLevel (env : Env) (self : TileLayer) (first : DataExtent)
    (rest : List DataExtent) :
    (computeUnion env self first rest).minLevel = rest.foldl minLevelStep first.minLevel := by
  unfold computeUnion
  simp only []
  split
  · exact foldl_unionStep_minLevel env first rest
  · exact foldl_unionStep_minLevel env first rest

end TileLayer

end Rocky

namespace Rocky

namespace TileLayer

/-- C13 at the failing input: the sample layer, upsampling off, with two extents of which
the first leaves `minLevel` unset and the second has `minLevel` 5 and `maxLevel` 8. The
only `minLevel` present is 5, yet the union's `minLevel` is set to 0 = min(0, 5), the value
an unset `optional<unsigned>` holds; with the two extents swapped it is 5. The union's
`maxLevel` is 8 in both orders. -/
theorem getDataExtentsUnion_minLevel_failing :
    presentMinLevels
        [Sample.worldExtent,
          { Sample.quarterExtent with minLevel := ⟨true, 5⟩ }] = [5] ∧
    (getDataExtentsUnion Sample.env
        { Sample.layer with
            _dataExtents := [Sample.worldExtent,
              { Sample.quarterExtent with minLevel := ⟨true, 5⟩ }] }).1.minLevel
      = ⟨true, 0⟩ ∧
    (getDataExtentsUnion Sample.env
        { Sample.layer with
            _dataExtents := [{ Sample.quarterExtent with minLevel := ⟨true, 5⟩ },
              Sample.worldExtent] }).1.minLevel
      = ⟨true, 5⟩ ∧
    (getDataExtentsUnion Sample.env
        { Sample.layer with
            _dataExtents := [Sample.worldExtent,
              { Sample.quarterExtent with minLevel := ⟨true, 5⟩ }] }).1.maxLevel
      = ⟨true, 8⟩ ∧
    (getDataExtentsUnion Sample.env
        { Sample.layer with
            _dataExtents := [{ Sample.quarterExtent with minLevel := ⟨true, 5⟩ },
              Sample.worldExtent] }).1.maxLevel
      = ⟨true, 8⟩ := by
  refine ⟨by decide, by decide, by decide, by decide, by decide⟩

end TileLayer

end Rocky

namespace Rocky

namespace TileLayer

/-! ### The index build -/

theorem indexInsertExtent_entries (env : Env) (self : TileLayer) (index : DataExtentsIndex)
    (de : DataExtent) :
    (indexInsertExtent env self index de).entries =
      index.entries ++ specIndexEntries env self._profile de := by
  unfold indexInsertExtent specIndexEntries halfExtent DataExtentsIndex.Insert
  simp only []
  split
  · split <;> split <;> simp
  · rfl

theorem foldl_indexInsertExtent_entries (env : Env) (self : TileLayer)
    (index : DataExtentsIndex) (extents : List DataExtent) :
    (extents.foldl (indexInsertExtent env self) index).entries =
      index.entries ++ extents.flatMap (specIndexEntries env self._profile) := by
  induction extents generalizing index with
  | nil => simp
  | cons de rest ih =>
    rw [List.foldl_cons, ih, indexInsertExtent_entries, List.flatMap_cons, List.append_assoc]

/-- C15: index build and antimeridian split. The index is built when none is cached, and
then holds, in the order of the data-extent list, the entries of each source extent: one
entry over the transformed extent when that is not a geographic antimeridian-crossing
extent, otherwise one entry per valid west and east half; and the payload of every entry
carries the `minLevel` and `maxLevel` of its source extent, presence and value. -/
theorem buildIndex_entries (env : Env) (self : TileLayer) :
    (self._dataExtentsIndex = none → (ensureIndex env self).1 = buildIndex env self) ∧
    (buildIndex env self).entries =
      self._dataExtents.flatMap (specIndexEntries env self._profile) ∧
    (∀ de : DataExtent,
      (env.isGeographic (env.clampAndTransformExtent self._profile de.toGeoExtent).srs &&
          env.crossesAntimeridian (env.clampAndTransformExtent self._profile de.toGeoExtent))
        = false →
      specIndexEntries env self._profile de =
        [(rectOf (env.clampAndTransformExtent self._profile de.toGeoExtent), de)]) ∧
    (∀ de : DataExtent,
      (env.isGeographic (env.clampAndTransformExtent self._profile de.toGeoExtent).srs &&
          env.crossesAntimeridian (env.clampAndTransformExtent self._profile de.toGeoExtent))
        = true →
      (specIndexEntries env self._profile de).length =
        (if (env.splitAcrossAntimeridian
              (env.clampAndTransformExtent self._profile de.toGeoExtent)).1.valid = true
          then 1 else 0) +
        (if (env.splitAcrossAntimeridian
              (env.clampAndTransformExtent self._profile de.toGeoExtent)).2.valid = true
          then 1 else 0)) ∧
    (∀ de : DataExtent, ∀ entry ∈ specIndexEntries env self._profile de,
      entry.2.minLevel = de.minLevel ∧ entry.2.maxLevel = de.maxLevel) := by
  refine ⟨?_, ?_, ?_, ?_, ?_⟩
  · intro h
    rw [ensureIndex_fst, h]
  · unfold buildIndex
    rw [foldl_indexInsertExtent_entries]
    rfl
  · intro de h
    unfold specIndexEntries
    simp only [h, Bool.false_eq_true, if_false]
  · intro de h
    unfold specIndexEntries
    simp only [h, if_true]
    split <;> split <;> simp
  · intro de entry hentry
    unfold specIndexEntries at hentry
    simp only [] at hentry
    split at hentry
    · rw [List.mem_append] at hentry
      rcases hentry with hentry | hentry
      · split at hentry
        · rw [List.mem_singleton] at hentry
          rw [hentry]
          exact ⟨rfl, rfl⟩
        · simp at hentry
      · split at hentry
        · rw [List.mem_singleton] at hentry
          rw [hentry]
          exact ⟨rfl, rfl⟩
        · simp at hentry
    · rw [List.mem_singleton] at hentry
      rw [hentry]
      exact ⟨rfl, rfl⟩

/-- C15 on explicit inputs (scenario S4): in the geographic sample world, the extent from
170 to 190 degrees yields two index entries, over [170, 180] and [-180, -170], both with
the `minLevel` 2 and the absent `maxLevel` of the source. -/
theorem buildIndex_entries_witness :
    (buildIndex Sample.geographicEnv
        { Sample.layer with _dataExtents := [Sample.wrappedExtent] }).entries.map
        (fun entry => (entry.1, entry.2.minLevel, entry.2.maxLevel)) =
      [(⟨170, -10, 180, 10⟩, ⟨true, 2⟩, ⟨false, 0⟩),
       (⟨-180, -10, -170, 10⟩, ⟨true, 2⟩, ⟨false, 0⟩)] := by
  rw [(buildIndex_entries Sample.geographicEnv
    { Sample.layer with _dataExtents := [Sample.wrappedExtent] }).2.1]
  simp [specIndexEntries, Sample.geographicEnv, Sample.wrappedExtent, Sample.env, rectOf]
  norm_num

end TileLayer

end Rocky

namespace Rocky

namespace TileLayer

/-! ### Index invalidation -/

/-- The index a layer without cached index uses is the one built from its extents. -/
theorem indexInUse_of_none (env : Env) (self : TileLayer)
    (h : self._dataExtentsIndex = none) : indexInUse env self = buildIndex env self := by
  unfold indexInUse
  rw [ensureIndex_fst, getDataExtentsUnion_snd_index, h]
  exact buildIndex_congr env (getDataExtentsUnion_sameConfig env self)

/-- Two layers with the same configuration and extents and with empty caches (no index,
no valid union) give the same answers. -/
theorem getBestAvailableTileKey_eq_of_empty_caches (env : Env) (a b : TileLayer)
    (hc : SameConfig a b)
    (hai : a._dataExtentsIndex = none) (hbi : b._dataExtentsIndex = none)
    (hau : a._dataExtentsUnion.valid = false) (hbu : b._dataExtentsUnion.valid = false)
    (key : TileKey) (u : Bool) :
    (getBestAvailableTileKey env a key u).1 = (getBestAvailableTileKey env b key u).1 := by
  rw [getBestAvailableTileKey_fst env a, getBestAvailableTileKey_fst env b,
    localLOD_congr env hc, levelLimitsReject_congr hc, resolutionLimitsReject_congr env hc,
    hc.dataExtents, hc.maxDataLevel, hitExtents_eq env a, hitExtents_eq env b,
    indexInUse_of_none env a hai, indexInUse_of_none env b hbi, buildIndex_congr env hc,
    hc.profile, afterSearch_congr a b key u _ hc.maxDataLevel hc.upsample]
  cases hl : b._dataExtents with
  | nil => simp
  | cons first rest =>
    rw [getDataExtentsUnion_of_invalid env a first rest (hc.dataExtents.trans hl) hau,
      getDataExtentsUnion_of_invalid env b first rest hl hbu, computeUnion_congr env hc]

theorem dirtyDataExtents_caches (self : TileLayer) :
    (dirtyDataExtents self)._dataExtentsIndex = none ∧
      (dirtyDataExtents self)._dataExtentsUnion.valid = false :=
  ⟨rfl, rfl⟩

theorem buildIndex_with_profile (env : Env) (s : TileLayer) :
    buildIndex env { s with _profile := s._profile } = buildIndex env s := rfl

/-- Every state of a layer keeps the cached index current. -/
theorem Reachable.indexCurrent {env : Env} {s : TileLayer} (h : Reachable env s) :
    IndexCurrent env s := by
  induction h with
  | construct s h =>
    intro index hidx
    rw [h] at hidx
    cases hidx
  | setDataExtents l _ _ =>
    intro index hidx
    cases hidx
  | addDataExtent e _ _ =>
    intro index hidx
    cases hidx
  | @getDataExtentsUnion s _ ih =>
    intro index hidx
    rw [getDataExtentsUnion_snd_index] at hidx
    obtain ⟨p, hp⟩ := ih index hidx
    refine ⟨p, hp.trans (buildIndex_congr env ?_)⟩
    have hc := getDataExtentsUnion_sameConfig env s
    exact ⟨hc.minLevel.symm, hc.maxLevel.symm, hc.minResolution.symm, hc.maxResolution.symm,
      hc.maxDataLevel.symm, hc.tileSize.symm, hc.upsample.symm, rfl, hc.dataExtents.symm⟩
  | @getBestAvailableTileKey s key u _ ih =>
    intro index hidx
    obtain ⟨hc, _, hi⟩ := getBestAvailableTileKey_cachesFilled env s key u
    have hcongr : ∀ p : Profile,
        buildIndex env { s with _profile := p } =
          buildIndex env { (TileLayer.getBestAvailableTileKey env s key u).2 with
            _profile := p } := fun p =>
      buildIndex_congr env
        ⟨hc.minLevel.symm, hc.maxLevel.symm, hc.minResolution.symm, hc.maxResolution.symm,
          hc.maxDataLevel.symm, hc.tileSize.symm, hc.upsample.symm, rfl, hc.dataExtents.symm⟩
    rcases hi with hi | hi
    · rw [hi] at hidx
      obtain ⟨p, hp⟩ := ih index hidx
      exact ⟨p, hp.trans (hcongr p)⟩
    · rw [hi] at hidx
      cases hidx
      cases hs : s._dataExtentsIndex with
      | none =>
        refine ⟨s._profile, ?_⟩
        rw [indexInUse_of_none env s hs]
        exact hcongr s._profile
      | some idx =>
        obtain ⟨p, hp⟩ := ih idx hs
        refine ⟨p, ?_⟩
        unfold indexInUse
        rw [ensureIndex_fst, getDataExtentsUnion_snd_index, hs]
        exact hp.trans (hcongr p)
  | @mayHaveData s key _ ih =>
    intro index hidx
    have hidx2 : (TileLayer.getBestAvailableTileKey env s key true).2._dataExtentsIndex
        = some index := hidx
    obtain ⟨hc, _, hi⟩ := getBestAvailableTileKey_cachesFilled env s key true
    have hcongr : ∀ p : Profile,
        buildIndex env { s with _profile := p } =
          buildIndex env { (TileLayer.mayHaveData env s key).2 with _profile := p } := fun p =>
      buildIndex_congr env
        ⟨hc.minLevel.symm, hc.maxLevel.symm, hc.minResolution.symm, hc.maxResolution.symm,
          hc.maxDataLevel.symm, hc.tileSize.symm, hc.upsample.symm, rfl, hc.dataExtents.symm⟩
    rcases hi with hi | hi
    · rw [hi] at hidx2
      obtain ⟨p, hp⟩ := ih index hidx2
      exact ⟨p, hp.trans (hcongr p)⟩
    · rw [hi] at hidx2
      cases hidx2
      cases hs : s._dataExtentsIndex with
      | none =>
        refine ⟨s._profile, ?_⟩
        rw [indexInUse_of_none env s hs]
        exact hcongr s._profile
      | some idx =>
        obtain ⟨p, hp⟩ := ih idx hs
        refine ⟨p, ?_⟩
        unfold indexInUse
        rw [ensureIndex_fst, getDataExtentsUnion_snd_index, hs]
        exact hp.trans (hcongr p)
  | setMinLevel v _ ih => exact ih
  | setMaxLevel v _ ih => exact ih
  | setMinResolution v _ ih => exact ih
  | setMaxResolution v _ ih => exact ih
  | setMaxDataLevel v _ ih => exact ih
  | setTileSize v _ ih => exact ih
  | setUpsample v _ ih => exact ih
  | setProfile p o _ ih => exact ih

end TileLayer

end Rocky

namespace Rocky

namespace TileLayer

/-- C12: index invalidation. In every state of a layer a cached index, when present, was
built from the current extent list. After `addDataExtent(e)` or `setDataExtents(l)` the
cached index is absent, the cached union is invalid and the extent list is the updated
one, so the next `getBestAvailableTileKey(k, u)` returns exactly what any layer with the
same configuration, the updated extent list and empty caches (as a freshly constructed
one) returns. -/
theorem dataExtents_invalidation (env : Env) (self : TileLayer)
    (hreach : Reachable env self) :
    (∀ index, self._dataExtentsIndex = some index →
      ∃ p : Profile, index = buildIndex env { self with _profile := p }) ∧
    (∀ e : DataExtent,
      (addDataExtent self e)._dataExtentsIndex = none ∧
      (addDataExtent self e)._dataExtentsUnion.valid = false ∧
      (addDataExtent self e)._dataExtents = self._dataExtents ++ [e] ∧
      ∀ fresh : TileLayer, SameConfig fresh (addDataExtent self e) →
        fresh._dataExtentsIndex = none → fresh._dataExtentsUnion.valid = false →
        ∀ (key : TileKey) (u : Bool),
          (getBestAvailableTileKey env (addDataExtent self e) key u).1 =
            (getBestAvailableTileKey env fresh key u).1) ∧
    (∀ l : List DataExtent,
      (setDataExtents self l)._dataExtentsIndex = none ∧
      (setDataExtents self l)._dataExtentsUnion.valid = false ∧
      (setDataExtents self l)._dataExtents = l ∧
      ∀ fresh : TileLayer, SameConfig fresh (setDataExtents self l) →
        fresh._dataExtentsIndex = none → fresh._dataExtentsUnion.valid = false →
        ∀ (key : TileKey) (u : Bool),
          (getBestAvailableTileKey env (setDataExtents self l) key u).1 =
            (getBestAvailableTileKey env fresh key u).1) := by
  refine ⟨hreach.indexCurrent, ?_, ?_⟩
  · intro e
    refine ⟨rfl, rfl, rfl, ?_⟩
    intro fresh hc hi hu key u
    exact (getBestAvailableTileKey_eq_of_empty_caches env fresh _ hc hi rfl hu rfl key u).symm
  · intro l
    refine ⟨rfl, rfl, rfl, ?_⟩
    intro fresh hc hi hu key u
    exact (getBestAvailableTileKey_eq_of_empty_caches env fresh _ hc hi rfl hu rfl key u).symm

/-- C12 on explicit inputs: the sample layer holding the quarter extent answers a query
over the opposite quarter with INVALID and caches its index; after `addDataExtent` of the
world-wide extent the cached index is gone and the same query is answered by the key
itself, as by the layer constructed with both extents. -/
theorem dataExtents_invalidation_witness :
    (getBestAvailableTileKey Sample.env
        { Sample.layer with _dataExtents := [Sample.quarterExtent] }
        ⟨10, 100, 700, Sample.profile21⟩ false).1 = TileKey.INVALID ∧
    (getBestAvailableTileKey Sample.env
        (getBestAvailableTileKey Sample.env
          { Sample.layer with _dataExtents := [Sample.quarterExtent] }
          ⟨10, 1500, 100, Sample.profile21⟩ false).2
        ⟨10, 100, 700, Sample.profile21⟩ false).2._dataExtentsIndex ≠ none ∧
    (getBestAvailableTileKey Sample.env
        (addDataExtent
          (getBestAvailableTileKey Sample.env
            { Sample.layer with _dataExtents := [Sample.quarterExtent] }
            ⟨10, 1500, 100, Sample.profile21⟩ false).2
          Sample.worldExtent)
        ⟨10, 100, 700, Sample.profile21⟩ false).1 =
      (getBestAvailableTileKey Sample.env
        { Sample.layer with _dataExtents := [Sample.quarterExtent, Sample.worldExtent] }
        ⟨10, 100, 700, Sample.profile21⟩ false).1 ∧
    (getBestAvailableTileKey Sample.env
        { Sample.layer with _dataExtents := [Sample.quarterExtent, Sample.worldExtent] }
        ⟨10, 100, 700, Sample.profile21⟩ false).1 = ⟨10, 100, 700, Sample.profile21⟩ :=
  ⟨by decide, by decide,
   ((dataExtents_invalidation Sample.env
      (getBestAvailableTileKey Sample.env
        { Sample.layer with _dataExtents := [Sample.quarterExtent] }
        ⟨10, 1500, 100, Sample.profile21⟩ false).2
      (Reachable.getBestAvailableTileKey _ _
        (Reachable.construct _ rfl))).2.1 Sample.worldExtent).2.2.2
      { Sample.layer with _dataExtents := [Sample.quarterExtent, Sample.worldExtent] }
      (by
        have hc := (getBestAvailableTileKey_cachesFilled Sample.env
          { Sample.layer with _dataExtents := [Sample.quarterExtent] }
          ⟨10, 1500, 100, Sample.profile21⟩ false).1
        exact ⟨hc.minLevel.symm, hc.maxLevel.symm, hc.minResolution.symm,
          hc.maxResolution.symm, hc.maxDataLevel.symm, hc.tileSize.symm, hc.upsample.symm,
          hc.profile.symm, by
            show _ = ((TileLayer.getBestAvailableTileKey Sample.env
              { Sample.layer with _dataExtents := [Sample.quarterExtent] }
              ⟨10, 1500, 100, Sample.profile21⟩ false).2)._dataExtents ++ [Sample.worldExtent]
            rw [hc.dataExtents]
            rfl⟩)
      rfl rfl _ _,
   by decide⟩

end TileLayer

end Rocky

namespace Rocky

namespace TileLayer

/-! ### Visit order of the search -/

theorem highestMaxLevel_perm (l : Nat) {hits1 hits2 : List DataExtent}
    (hperm : hits1.Perm hits2) (init : Nat) :
    highestMaxLevel l hits1 init = highestMaxLevel l hits2 init := by
  unfold highestMaxLevel
  apply List.Perm.foldl_eq' (hperm.filter _)
  intro x _ y _ z
  simp only [Nat.max_assoc, Nat.max_comm x.maxLevel.value]

theorem any_passesMinLevel_perm (l : Nat) {hits1 hits2 : List DataExtent}
    (hperm : hits1.Perm hits2) :
    hits1.any (passesMinLevel l) = hits2.any (passesMinLevel l) := by
  rw [Bool.eq_iff_iff, List.any_eq_true, List.any_eq_true]
  constructor
  · rintro ⟨de, hde, h⟩
    exact ⟨de, hperm.mem_iff.1 hde, h⟩
  · rintro ⟨de, hde, h⟩
    exact ⟨de, hperm.mem_iff.2 hde, h⟩

/-- The search is insensitive to the order in which the same hits are visited whenever the
MDL-limited key is a valid key, or no hit is accepting. -/
theorem afterSearch_visitAll_perm (self : TileLayer) (key : TileKey) (u : Bool)
    (l m : Nat) {hits1 hits2 : List DataExtent} (hperm : hits1.Perm hits2)
    (h : (mdlLimitedKey key l m).valid = true ∨ ∀ de ∈ hits1, acceptsLevel l de = false) :
    afterSearch self key u (visitAll key l m hits1 ⟨TileKey.INVALID, false, 0⟩) =
      afterSearch self key u (visitAll key l m hits2 ⟨TileKey.INVALID, false, 0⟩) := by
  by_cases hacc : ∃ de ∈ hits1, acceptsLevel l de = true
  · have hacc2 : ∃ de ∈ hits2, acceptsLevel l de = true := by
      obtain ⟨de, hde, h⟩ := hacc
      exact ⟨de, hperm.mem_iff.1 hde, h⟩
    have hv : (mdlLimitedKey key l m).valid = true := by
      rcases h with h | h
      · exact h
      · obtain ⟨de, hde, hd⟩ := hacc
        rw [h de hde] at hd
        cases hd
    obtain ⟨h1, _⟩ := visitAll_accept key l m hits1 ⟨TileKey.INVALID, false, 0⟩ hacc
    obtain ⟨h2, _⟩ := visitAll_accept key l m hits2 ⟨TileKey.INVALID, false, 0⟩ hacc2
    rw [afterSearch_eq, afterSearch_eq, h1, h2, if_pos hv, if_pos hv]
  · have hno1 : ∀ de ∈ hits1, acceptsLevel l de = false := by
      intro de hde
      cases ha : acceptsLevel l de
      · rfl
      · exact absurd ⟨de, hde, ha⟩ hacc
    have hno2 : ∀ de ∈ hits2, acceptsLevel l de = false :=
      fun de hde => hno1 de (hperm.mem_iff.2 hde)
    rw [visitAll_no_accept key l m hits1 _ hno1, visitAll_no_accept key l m hits2 _ hno2,
      highestMaxLevel_perm l hperm, any_passesMinLevel_perm l hperm]

/-- C19 at the failing input: the sample layer over the 2 × 1 profile with MDL 3 and two
world-wide extents, the first without level bounds and the second with `maxLevel` 1, asked
for the key (2, 3, 1) of the 8 × 4 profile, whose local LOD is 4. Both extents are hit in
either visit order. Visited in insertion order the search stops at the first extent with
`highestLOD` 0 and the call returns the ancestor at level 0; visited in the reverse order
it has seen `maxLevel` 1 before stopping and the call returns the ancestor at level 1. -/
theorem getBestAvailableTileKey_visit_order_failing :
    (hitExtents Sample.env
        { Sample.layer with
            _maxDataLevel := ⟨true, 3⟩,
            _dataExtents := [Sample.worldExtent,
              { Sample.worldExtent with maxLevel := ⟨true, 1⟩ }] }
        ⟨2, 3, 1, Sample.profile84⟩).Perm
      (hitExtents { Sample.env with visitOrder := List.reverse }
        { Sample.layer with
            _maxDataLevel := ⟨true, 3⟩,
            _dataExtents := [Sample.worldExtent,
              { Sample.worldExtent with maxLevel := ⟨true, 1⟩ }] }
        ⟨2, 3, 1, Sample.profile84⟩) ∧
    (getBestAvailableTileKey Sample.env
        { Sample.layer with
            _maxDataLevel := ⟨true, 3⟩,
            _dataExtents := [Sample.worldExtent,
              { Sample.worldExtent with maxLevel := ⟨true, 1⟩ }] }
        ⟨2, 3, 1, Sample.profile84⟩ false).1 = ⟨0, 0, 0, Sample.profile84⟩ ∧
    (getBestAvailableTileKey { Sample.env with visitOrder := List.reverse }
        { Sample.layer with
            _maxDataLevel := ⟨true, 3⟩,
            _dataExtents := [Sample.worldExtent,
              { Sample.worldExtent with maxLevel := ⟨true, 1⟩ }] }
        ⟨2, 3, 1, Sample.profile84⟩ false).1 = ⟨1, 1, 0, Sample.profile84⟩ := by
  refine ⟨?_, by decide, by decide⟩
  have h1 : hitExtents Sample.env
        { Sample.layer with
            _maxDataLevel := ⟨true, 3⟩,
            _dataExtents := [Sample.worldExtent,
              { Sample.worldExtent with maxLevel := ⟨true, 1⟩ }] }
        ⟨2, 3, 1, Sample.profile84⟩ =
      [Sample.worldExtent, { Sample.worldExtent with maxLevel := ⟨true, 1⟩ }] := by decide
  have h2 : hitExtents { Sample.env with visitOrder := List.reverse }
        { Sample.layer with
            _maxDataLevel := ⟨true, 3⟩,
            _dataExtents := [Sample.worldExtent,
              { Sample.worldExtent with maxLevel := ⟨true, 1⟩ }] }
        ⟨2, 3, 1, Sample.profile84⟩ =
      [{ Sample.worldExtent with maxLevel := ⟨true, 1⟩ }, Sample.worldExtent] := by decide
  rw [h1, h2]
  exact List.Perm.swap _ _ _

end TileLayer

end Rocky

namespace Rocky

namespace CacheBinMetadata

/-! ### Cache-bin metadata -/

theorem writeExtent_children (codec : Codec) (i : DataExtent) :
    (writeExtent codec i).children =
      [Config.mk "srs" i.srs.definition [],
       Config.mk "xmin" (codec.doubleToString i.xMin) [],
       Config.mk "ymin" (codec.doubleToString i.yMin) [],
       Config.mk "xmax" (codec.doubleToString i.xMax) [],
       Config.mk "ymax" (codec.doubleToString i.yMax) []] ++
      (if i.minLevel.has_value = true then
        [Config.mk "minlevel" (codec.unsignedToString i.minLevel.value) []] else []) ++
      (if i.maxLevel.has_value = true then
        [Config.mk "maxlevel" (codec.unsignedToString i.maxLevel.value) []] else []) := by
  unfold writeExtent
  cases h1 : i.minLevel.has_value <;> cases h2 : i.maxLevel.has_value <;>
    simp [Config.setOptionalUnsigned, Config.setString, Config.add, Config.remove,
      Config.children, Config.key, Config.value, h1, h2]

theorem readExtent_writeExtent (codec : Codec) (i : DataExtent) (k v : String) :
    readExtent codec (Config.mk k v (writeExtent codec i).children) =
      { valid := codec.extentValid i.srs
          (codec.stringToFloat (codec.doubleToString i.xMin) 0)
          (codec.stringToFloat (codec.doubleToString i.yMin) 0)
          (codec.stringToFloat (codec.doubleToString i.xMax) 0)
          (codec.stringToFloat (codec.doubleToString i.yMax) 0)
        srs := i.srs
        xMin := codec.stringToFloat (codec.doubleToString i.xMin) 0
        yMin := codec.stringToFloat (codec.doubleToString i.yMin) 0
        xMax := codec.stringToFloat (codec.doubleToString i.xMax) 0
        yMax := codec.stringToFloat (codec.doubleToString i.yMax) 0
        minLevel := levelReadBack codec i.minLevel
        maxLevel := levelReadBack codec i.maxLevel } := by
  have he : ("" : String).isEmpty = true := by decide
  unfold readExtent levelReadBack
  rw [writeExtent_children]
  cases h1 : i.minLevel.has_value <;> cases h2 : i.maxLevel.has_value <;>
    cases h3 : (codec.unsignedToString i.minLevel.value).isEmpty <;>
    cases h4 : (codec.unsignedToString i.maxLevel.value).isEmpty <;>
    simp [Config.valueFloat, Config.valueOf, Config.child_ptr, Config.children, Config.key,
      Config.value, Config.getOptionalUnsigned, Config.hasValue, DataExtent.ofGeoExtent,
      optional.assign, h1, h2, h3, h4, he]

end CacheBinMetadata

end Rocky

namespace Rocky

namespace Config

theorem mem_children_remove {conf : Config} {name : String} {c : Config}
    (h : c ∈ (conf.remove name).children) : c ∈ conf.children := by
  simp only [remove, children] at h
  exact (List.mem_filter.1 h).1

theorem mem_children_add {conf sub : Config} {name : String} {c : Config}
    (h : c ∈ (conf.add name sub).children) : c ∈ conf.children ∨ c.key = name := by
  simp only [add, children, List.mem_append, List.mem_singleton] at h
  rcases h with h | h
  · exact Or.inl h
  · right
    rw [h]
    rfl

theorem mem_children_setString {conf : Config} {name v : String} {c : Config}
    (h : c ∈ (conf.setString name v).children) : c ∈ conf.children ∨ c.key = name := by
  unfold setString at h
  rcases mem_children_add h with h | h
  · exact Or.inl (mem_children_remove h)
  · exact Or.inr h

theorem mem_children_setOptionalString {conf : Config} {name : String}
    {opt : optional String} {c : Config}
    (h : c ∈ (conf.setOptionalString name opt).children) :
    c ∈ conf.children ∨ c.key = name := by
  unfold setOptionalString at h
  split at h
  · exact mem_children_setString h
  · exact Or.inl (mem_children_remove h)

theorem mem_children_setOptionalUnsigned {codec : Codec} {conf : Config} {name : String}
    {opt : optional Nat} {c : Config}
    (h : c ∈ (conf.setOptionalUnsigned codec name opt).children) :
    c ∈ conf.children ∨ c.key = name := by
  unfold setOptionalUnsigned at h
  split at h
  · exact mem_children_setString h
  · exact Or.inl (mem_children_remove h)

theorem mem_children_setOptionalConfig {conf : Config} {name : String}
    {opt : optional Config} {c : Config}
    (h : c ∈ (conf.setOptionalConfig name opt).children) :
    c ∈ conf.children ∨ c.key = name := by
  unfold setOptionalConfig at h
  split at h
  · rcases mem_children_add h with h | h
    · exact Or.inl (mem_children_remove h)
    · exact Or.inr h
  · exact Or.inl (mem_children_remove h)

theorem children_add (conf sub : Config) (name : String) :
    (conf.add name sub).children = conf.children ++ [mk name sub.value sub.children] := rfl

/-- Adding a child under a key no child has makes it the child found under that key. -/
theorem child_ptr_add {conf sub : Config} {name : String}
    (h : ∀ c ∈ conf.children, c.key ≠ name) :
    (conf.add name sub).child_ptr name = some (mk name sub.value sub.children) := by
  have hnone : conf.children.find? (fun c => c.key == name) = none := by
    rw [List.find?_eq_none]
    intro c hc
    simpa using h c hc
  have hkey : (mk name sub.value sub.children).key = name := rfl
  unfold child_ptr
  rw [children_add, List.find?_append, hnone]
  simp [hkey]

end Config

namespace CacheBinMetadata

theorem foldl_add_extent_children (codec : Codec) (extents : List DataExtent)
    (acc : Config) :
    (extents.foldl (fun acc i => acc.add "extent" (writeExtent codec i)) acc).children =
      acc.children ++ extents.map (fun i =>
        Config.mk "extent" (writeExtent codec i).value (writeExtent codec i).children) := by
  induction extents generalizing acc with
  | nil => simp
  | cons i rest ih =>
    rw [List.foldl_cons, ih]
    simp [Config.add, Config.children]

/-- The data extents read back from the Config written by `getConfig`: each extent of the
metadata, written and read. -/
theorem ofConfig_getConfig_dataExtents (codec : Codec) (m : CacheBinMetadata) :
    (ofConfig codec (getConfig codec m))._dataExtents =
      m._dataExtents.map (fun i => readExtent codec
        (Config.mk "extent" (writeExtent codec i).value (writeExtent codec i).children)) := by
  have hkeys : ∀ c ∈
      ((((((((Config.mk "osgearth_terrainlayer_cachebin" "" []).setOptionalString
        "cachebin_id" m._cacheBinId).setOptionalString
        "source_name" m._sourceName).setOptionalString
        "source_driver" m._sourceDriver).setOptionalUnsigned codec
        "source_tile_size" m._sourceTileSize).setOptionalConfig
        "source_profile" m._sourceProfile).setOptionalConfig
        "cache_profile" m._cacheProfile).setOptionalUnsigned codec
        "cache_create_time" m._cacheCreateTime).children, c.key ≠ "extents" := by
    intro c hc
    rcases Config.mem_children_setOptionalUnsigned hc with hc | hc
    swap
    · rw [hc]; decide
    rcases Config.mem_children_setOptionalConfig hc with hc | hc
    swap
    · rw [hc]; decide
    rcases Config.mem_children_setOptionalConfig hc with hc | hc
    swap
    · rw [hc]; decide
    rcases Config.mem_children_setOptionalUnsigned hc with hc | hc
    swap
    · rw [hc]; decide
    rcases Config.mem_children_setOptionalString hc with hc | hc
    swap
    · rw [hc]; decide
    rcases Config.mem_children_setOptionalString hc with hc | hc
    swap
    · rw [hc]; decide
    rcases Config.mem_children_setOptionalString hc with hc | hc
    swap
    · rw [hc]; decide
    simp [Config.children] at hc
  unfold ofConfig getConfig
  simp only []
  cases hl : m._dataExtents with
  | nil =>
    have hnone : Config.child_ptr
        ((((((((Config.mk "osgearth_terrainlayer_cachebin" "" []).setOptionalString
          "cachebin_id" m._cacheBinId).setOptionalString
          "source_name" m._sourceName).setOptionalString
          "source_driver" m._sourceDriver).setOptionalUnsigned codec
          "source_tile_size" m._sourceTileSize).setOptionalConfig
          "source_profile" m._sourceProfile).setOptionalConfig
          "cache_profile" m._cacheProfile).setOptionalUnsigned codec
          "cache_create_time" m._cacheCreateTime) "extents" = none := by
      unfold Config.child_ptr
      rw [List.find?_eq_none]
      intro c hc
      simpa using hkeys c hc
    simp [hnone]
  | cons i rest =>
    simp only [List.isEmpty_cons, Bool.not_false, if_true]
    rw [Config.child_ptr_add hkeys]
    show List.map (readExtent codec) (List.foldl (fun extents i =>
        extents.add "extent" (writeExtent codec i)) (Config.mk "" "" []) (i :: rest)).children = _
    rw [foldl_add_extent_children]
    simp [Config.children]

end CacheBinMetadata

end Rocky

namespace Rocky

namespace CacheBinMetadata

theorem sameLevel_levelReadBack (codec : Codec) (level : optional Nat)
    (h : levelSurvives codec level) : sameLevel (levelReadBack codec level) level := by
  unfold sameLevel levelReadBack
  cases hv : level.has_value with
  | false => simp
  | true =>
    obtain ⟨h1, h2⟩ := h hv
    simp [h1, h2, optional.assign]

/-- Where the conversions of the `Config` give back every coordinate and every set level,
the extents read from the written `Config` agree with the extents of the metadata, entry by
entry. -/
theorem ofConfig_getConfig_sameExtent (codec : Codec) (m : CacheBinMetadata)
    (hcoord : ∀ i ∈ m._dataExtents, coordinateSurvives codec i.xMin ∧
      coordinateSurvives codec i.yMin ∧ coordinateSurvives codec i.xMax ∧
      coordinateSurvives codec i.yMax)
    (hlevel : ∀ i ∈ m._dataExtents, levelSurvives codec i.minLevel ∧
      levelSurvives codec i.maxLevel) :
    List.Forall₂ sameExtent (ofConfig codec (getConfig codec m))._dataExtents
      m._dataExtents := by
  rw [ofConfig_getConfig_dataExtents, List.forall₂_map_left_iff, List.forall₂_same]
  intro i hi
  obtain ⟨hx0, hy0, hx1, hy1⟩ := hcoord i hi
  obtain ⟨hmin, hmax⟩ := hlevel i hi
  unfold coordinateSurvives at hx0 hy0 hx1 hy1
  rw [readExtent_writeExtent]
  exact ⟨rfl, hx0, hy0, hx1, hy1, sameLevel_levelReadBack codec _ hmin,
    sameLevel_levelReadBack codec _ hmax⟩

/-- The sample metadata, written and read back, is a valid metadata: its `Config` is not
empty and carries the three required entries. -/
theorem ofConfig_getConfig_sample_valid :
    (ofConfig Sample.codec (getConfig Sample.codec Sample.metadata))._valid = true := by
  decide

end CacheBinMetadata

end Rocky

namespace Rocky

namespace CacheBinMetadata

/-- C17: the metadata parsed from a `Config` is valid exactly when the config is not empty,
has a value for `source_tile_size`, a child `source_profile` and a child `cache_profile`;
when any of the three is missing the metadata is invalid, whatever else the config holds. -/
theorem ofConfig_valid_iff (codec : Codec) (conf : Config) :
    ((ofConfig codec conf)._valid = true ↔
      conf.empty = false ∧ conf.hasValue "source_tile_size" = true ∧
        conf.hasChild "source_profile" = true ∧ conf.hasChild "cache_profile" = true) ∧
    ((conf.hasValue "source_tile_size" = false ∨ conf.hasChild "source_profile" = false ∨
        conf.hasChild "cache_profile" = false) → (ofConfig codec conf)._valid = false) := by
  unfold ofConfig
  cases conf.empty <;> cases conf.hasValue "source_tile_size" <;>
    cases conf.hasChild "source_profile" <;> cases conf.hasChild "cache_profile" <;> simp

/-- C20, evaluated at the failing input: a metadata with one extent whose `xMax` is
`33554433` is written by `getConfig` and read back by the `Config` constructor with the same
number of extents, the same SRS and the same levels, but with `xMax = 33554432`: the
coordinate went through `float`. -/
theorem ofConfig_getConfig_rectangle_failing :
    Sample.metadata._dataExtents =
      [{ valid := true, srs := ⟨"epsg:3857"⟩, xMin := 0, yMin := 0,
         xMax := 33554433, yMax := 1024,
         minLevel := ⟨true, 3⟩, maxLevel := ⟨false, 0⟩ }] ∧
    (ofConfig Sample.codec (getConfig Sample.codec Sample.metadata))._dataExtents =
      [{ valid := true, srs := ⟨"epsg:3857"⟩, xMin := 0, yMin := 0,
         xMax := 33554432, yMax := 1024,
         minLevel := ⟨true, 3⟩, maxLevel := ⟨false, 0⟩ }] ∧
    ¬ List.Forall₂ sameExtent
      (ofConfig Sample.codec (getConfig Sample.codec Sample.metadata))._dataExtents
      Sample.metadata._dataExtents := by
  have h1 : Sample.metadata._dataExtents =
      [{ valid := true, srs := ⟨"epsg:3857"⟩, xMin := 0, yMin := 0,
         xMax := 33554433, yMax := 1024,
         minLevel := ⟨true, 3⟩, maxLevel := ⟨false, 0⟩ }] := rfl
  have h2 : (ofConfig Sample.codec (getConfig Sample.codec Sample.metadata))._dataExtents =
      [{ valid := true, srs := ⟨"epsg:3857"⟩, xMin := 0, yMin := 0,
         xMax := 33554432, yMax := 1024,
         minLevel := ⟨true, 3⟩, maxLevel := ⟨false, 0⟩ }] := by decide
  refine ⟨h1, h2, ?_⟩
  rw [h2, h1]
  intro h
  have h3 := (List.forall₂_cons.1 h).1
  have h4 : (33554432 : ℚ) = 33554433 := h3.2.2.2.1
  norm_num at h4

end CacheBinMetadata

end Rocky

/-! ## Further facts: gates, upsampling, getters, copies -/

namespace Rocky

namespace TileLayer

/-! ### Hits below their `minLevel` -/

/-- A search in which no hit passes the `minLevel` test leaves the captured locals as they
were. -/
theorem visitAll_no_pass (key : TileKey) (l m : Nat) (hits : List DataExtent)
    (s : SearchState) (h : ∀ de ∈ hits, passesMinLevel l de = false) :
    visitAll key l m hits s = s := by
  induction hits generalizing s with
  | nil => rfl
  | cons de rest ih =>
    have hp : passesMinLevel l de = false := h de (List.mem_cons_self _ _)
    simp only [visitAll, visitor_skip key l m de s hp]
    exact ih s (fun d hd => h d (List.mem_cons_of_mem _ hd))

theorem passesMinLevel_eq_false_iff (l : Nat) (de : DataExtent) :
    passesMinLevel l de = false ↔ de.minLevel.has_value = true ∧ l < de.minLevel.value := by
  unfold passesMinLevel
  cases de.minLevel.has_value <;> simp

/-- C22: extents that start below the requested level do not count. For every key that
passes the gates and whose extent intersects the union of a non-empty extent list, if every
indexed extent hit by the key's rectangle has `minLevel` set and above the key's local LOD,
`getBestAvailableTileKey(k, u)` returns `TileKey::INVALID` for both values of `u`, whatever
the layer's `upsample`. -/
theorem getBestAvailableTileKey_below_minLevel (env : Env) (self : TileLayer)
    (key : TileKey) (u : Bool)
    (hgates : isKeyInVisualRange env self key = true)
    (hnonempty : self._dataExtents ≠ [])
    (hunion : env.intersects (getDataExtentsUnion env self).1.toGeoExtent (env.extent key)
      = true)
    (hall : ∀ de ∈ hitExtents env self key,
      de.minLevel.has_value = true ∧ localLOD env self key < de.minLevel.value) :
    (getBestAvailableTileKey env self key u).1 = TileKey.INVALID := by
  rw [getBestAvailableTileKey_search env self key u hgates hnonempty hunion,
    visitAll_no_pass key _ _ _ _
      (fun de hde => (passesMinLevel_eq_false_iff _ de).2 (hall de hde)),
    afterSearch_eq]
  simp [TileKey.INVALID_valid]

/-- C22 on explicit inputs: the sample layer with `upsample` true and the quarter extent
starting at `minLevel` 5, asked for the level-3 key (3, 11, 0) inside that extent. The
search hits the extent, which starts below level 3, and the answer is INVALID with and
without upsampling. -/
theorem getBestAvailableTileKey_below_minLevel_witness :
    hitExtents Sample.env
        { Sample.layer with
            _upsample := ⟨true, true⟩,
            _dataExtents := [{ Sample.quarterExtent with minLevel := ⟨true, 5⟩ }] }
        ⟨3, 11, 0, Sample.profile21⟩ =
      [{ Sample.quarterExtent with minLevel := ⟨true, 5⟩ }] ∧
    (getBestAvailableTileKey Sample.env
        { Sample.layer with
            _upsample := ⟨true, true⟩,
            _dataExtents := [{ Sample.quarterExtent with minLevel := ⟨true, 5⟩ }] }
        ⟨3, 11, 0, Sample.profile21⟩ true).1 = TileKey.INVALID ∧
    (getBestAvailableTileKey Sample.env
        { Sample.layer with
            _upsample := ⟨true, true⟩,
            _dataExtents := [{ Sample.quarterExtent with minLevel := ⟨true, 5⟩ }] }
        ⟨3, 11, 0, Sample.profile21⟩ false).1 = TileKey.INVALID :=
  ⟨by decide,
   getBestAvailableTileKey_below_minLevel Sample.env _ _ true (by decide) (by decide)
    (by decide) (by decide),
   getBestAvailableTileKey_below_minLevel Sample.env _ _ false (by decide) (by decide)
    (by decide) (by decide)⟩

/-! ### Legal range and visual range -/

/-- C23: `isKeyInLegalRange` differs from `isKeyInVisualRange` only by the `maxDataLevel`
gate. For every layer and key, `isKeyInLegalRange(key)` holds exactly when
`isKeyInVisualRange(key)` holds and not (`maxDataLevel` is set and the local LOD is above
it); hence every legal key is in visual range. -/
theorem isKeyInLegalRange_iff_isKeyInVisualRange (env : Env) (self : TileLayer)
    (key : TileKey) :
    (isKeyInLegalRange env self key = true ↔
      isKeyInVisualRange env self key = true ∧
        ¬ (self._maxDataLevel.has_value = true ∧
            localLOD env self key > self._maxDataLevel.value)) ∧
    (isKeyInLegalRange env self key = true → isKeyInVisualRange env self key = true) := by
  unfold isKeyInLegalRange isKeyInVisualRange
  cases hv : key.valid <;> cases hl : levelLimitsReject self (localLOD env self key) <;>
    cases hr : resolutionLimitsReject env self key <;>
    cases hm : self._maxDataLevel.has_value <;> simp

end TileLayer

end Rocky

namespace Rocky

namespace TileLayer

/-! ### Considering upsampling -/

/-- The fallback after a search with intersecting hits: the ancestor at `min(key.lod, M)`
of a valid key is valid and lies at that level. -/
theorem createAncestorKey_min (key : TileKey) (M : Nat) (hv : key.valid = true) :
    (key.createAncestorKey (min key.levelOfDetail M)).valid = true ∧
      (key.createAncestorKey (min key.levelOfDetail M)).levelOfDetail =
        min key.levelOfDetail M := by
  obtain ⟨h1, h2⟩ := TileKey.createAncestorKey_of_le key (Nat.min_le_left key.levelOfDetail M)
  refine ⟨?_, h1⟩
  unfold TileKey.valid
  rw [h2]
  exact hv

/-- The answers with and without `considerUpsampling` after the same search: valid
together, the former at least as deep as the latter. -/
theorem afterSearch_considerUpsampling (self : TileLayer) (key : TileKey) (s : SearchState)
    (hv : key.valid = true) :
    (afterSearch self key true s).valid = (afterSearch self key false s).valid ∧
      (afterSearch self key false s).levelOfDetail ≤
        (afterSearch self key true s).levelOfDetail := by
  rw [afterSearch_eq, afterSearch_eq]
  cases hb : s.bestKey.valid
  · cases hi : s.intersects
    · simp
    · simp only [Bool.false_eq_true, if_false, if_true]
      obtain ⟨h1, h2⟩ := createAncestorKey_min key
        (if upsampling self true = true then max s.highestLOD self._maxDataLevel.value
         else min s.highestLOD self._maxDataLevel.value) hv
      obtain ⟨h3, h4⟩ := createAncestorKey_min key
        (if upsampling self false = true then max s.highestLOD self._maxDataLevel.value
         else min s.highestLOD self._maxDataLevel.value) hv
      rw [h1, h2, h3, h4]
      refine ⟨rfl, ?_⟩
      have hf : upsampling self false = false := rfl
      rw [hf]
      simp only [Bool.false_eq_true, if_false]
      split <;> omega
  · simp

/-- C24: considering upsampling never makes the answer shallower or less available. For
every layer and key, `getBestAvailableTileKey(k, true)` is valid exactly when
`getBestAvailableTileKey(k, false)` is, and the level of detail of the former is at least
that of the latter; the same holds when the second call is made on the layer as the first
call left it, in either order. -/
theorem getBestAvailableTileKey_considerUpsampling (env : Env) (self : TileLayer)
    (key : TileKey) :
    ((getBestAvailableTileKey env self key true).1.valid = true ↔
      (getBestAvailableTileKey env self key false).1.valid = true) ∧
    ((getBestAvailableTileKey env self key true).1.valid = true →
      (getBestAvailableTileKey env self key false).1.valid = true →
      (getBestAvailableTileKey env self key false).1.levelOfDetail ≤
        (getBestAvailableTileKey env self key true).1.levelOfDetail) ∧
    (getBestAvailableTileKey env (getBestAvailableTileKey env self key false).2 key true).1 =
      (getBestAvailableTileKey env self key true).1 ∧
    (getBestAvailableTileKey env (getBestAvailableTileKey env self key true).2 key false).1 =
      (getBestAvailableTileKey env self key false).1 := by
  have hmain : (getBestAvailableTileKey env self key true).1.valid =
        (getBestAvailableTileKey env self key false).1.valid ∧
      (getBestAvailableTileKey env self key false).1.levelOfDetail ≤
        (getBestAvailableTileKey env self key true).1.levelOfDetail := by
    rw [getBestAvailableTileKey_fst env self key true,
      getBestAvailableTileKey_fst env self key false]
    by_cases hv : key.valid = false
    · simp [hv]
    · have hv2 : key.valid = true := by simpa using hv
      simp only [hv, if_false]
      by_cases hl : levelLimitsReject self (localLOD env self key) = true
      · simp only [hl, if_true]
        exact ⟨trivial, Nat.le_refl _⟩
      · simp only [hl, if_false]
        by_cases hr : resolutionLimitsReject env self key = true
        · simp only [hr, if_true]
          exact ⟨trivial, Nat.le_refl _⟩
        · simp only [hr, if_false]
          by_cases he : self._dataExtents = []
          · simp only [he, if_true]
            exact ⟨trivial, Nat.le_refl _⟩
          · simp only [he, if_false]
            by_cases hu : env.intersects (getDataExtentsUnion env self).1.toGeoExtent
                (env.extent key) = false
            · simp only [hu, if_true]
              exact ⟨trivial, Nat.le_refl _⟩
            · simp only [hu, if_false]
              exact afterSearch_considerUpsampling self key _ hv2
  refine ⟨by rw [hmain.1], fun _ _ => hmain.2, ?_, ?_⟩
  · exact (getBestAvailableTileKey_cachesFilled env self key false).getBestAvailableTileKey_eq
      key true
  · exact (getBestAvailableTileKey_cachesFilled env self key true).getBestAvailableTileKey_eq
      key false

/-! ### No data extents -/

/-- With no data extents, a key that passes the gates is answered by a valid key, the key or
its ancestor at MDL, whenever its local LOD is not above MDL or MDL is not above its own
level. -/
theorem getBestAvailableTileKey_empty_valid (env : Env) (self : TileLayer) (key : TileKey)
    (u : Bool) (hempty : self._dataExtents = [])
    (hgates : isKeyInVisualRange env self key = true)
    (h : localLOD env self key ≤ self._maxDataLevel.value ∨
      self._maxDataLevel.value ≤ key.levelOfDetail) :
    (getBestAvailableTileKey env self key u).1.valid = true ∧
      ((getBestAvailableTileKey env self key u).1 = key ∨
        (getBestAvailableTileKey env self key u).1 =
          key.createAncestorKey self._maxDataLevel.value) := by
  have hv : key.valid = true := ((isKeyInVisualRange_eq_true_iff env self key).1 hgates).1
  rw [getBestAvailableTileKey_empty env self key u hempty hgates]
  by_cases hle : localLOD env self key ≤ self._maxDataLevel.value
  · rw [mdlLimitedKey_of_le key hle]
    exact ⟨hv, Or.inl rfl⟩
  · rw [mdlLimitedKey_of_gt key (Nat.not_le.mp hle)]
    have hm : self._maxDataLevel.value ≤ key.levelOfDetail := by
      rcases h with h | h
      · exact absurd h hle
      · exact h
    refine ⟨?_, Or.inr rfl⟩
    unfold TileKey.valid
    rw [(TileKey.createAncestorKey_of_le key hm).2]
    exact hv

/-- C25 at the failing input: the sample layer over the 2 × 1 profile with MDL 3 and no
data extents, asked for the key (2, 3, 1) of the 8 × 4 profile. The key is valid and passes
the gates; its local LOD is 4, above MDL, so the code returns `createAncestorKey(3)` of a
level-2 key, which is INVALID, for both values of the flag. -/
theorem getBestAvailableTileKey_no_extents_failing :
    ({ Sample.layer with _maxDataLevel := ⟨true, 3⟩ } : TileLayer)._dataExtents = [] ∧
    isKeyInVisualRange Sample.env { Sample.layer with _maxDataLevel := ⟨true, 3⟩ }
      ⟨2, 3, 1, Sample.profile84⟩ = true ∧
    localLOD Sample.env { Sample.layer with _maxDataLevel := ⟨true, 3⟩ }
      ⟨2, 3, 1, Sample.profile84⟩ = 4 ∧
    (getBestAvailableTileKey Sample.env { Sample.layer with _maxDataLevel := ⟨true, 3⟩ }
      ⟨2, 3, 1, Sample.profile84⟩ true).1 = TileKey.INVALID ∧
    (getBestAvailableTileKey Sample.env { Sample.layer with _maxDataLevel := ⟨true, 3⟩ }
      ⟨2, 3, 1, Sample.profile84⟩ false).1 = TileKey.INVALID ∧
    (getBestAvailableTileKey Sample.env { Sample.layer with _maxDataLevel := ⟨true, 3⟩ }
      ⟨2, 3, 1, Sample.profile84⟩ true).1.valid = false := by
  refine ⟨rfl, by decide, by decide, by decide, by decide, by decide⟩

/-! ### Setters and getters -/

/-- The six setters that store their argument: the matching getter returns a set option
holding it. -/
theorem getters_setters (self : TileLayer) (n : Nat) (q : ℚ) :
    minLevel (setMinLevel self n) = ⟨true, n⟩ ∧
    maxLevel (setMaxLevel self n) = ⟨true, n⟩ ∧
    minResolution (setMinResolution self q) = ⟨true, q⟩ ∧
    maxResolution (setMaxResolution self q) = ⟨true, q⟩ ∧
    maxDataLevel (setMaxDataLevel self n) = ⟨true, n⟩ ∧
    tileSize (setTileSize self n) = ⟨true, n⟩ :=
  ⟨rfl, rfl, rfl, rfl, rfl, rfl⟩

/-- Every setter changes only its own field and, for the six that write it, the flag
`_reopenRequired`: with these put back, the layer is the one before the call. -/
theorem setters_other_fields (self : TileLayer) (n : Nat) (q : ℚ) (b : Bool) :
    { setMinLevel self n with
        _minLevel := self._minLevel, _reopenRequired := self._reopenRequired } = self ∧
    { setMaxLevel self n with
        _maxLevel := self._maxLevel, _reopenRequired := self._reopenRequired } = self ∧
    { setMinResolution self q with
        _minResolution := self._minResolution,
        _reopenRequired := self._reopenRequired } = self ∧
    { setMaxResolution self q with
        _maxResolution := self._maxResolution,
        _reopenRequired := self._reopenRequired } = self ∧
    { setMaxDataLevel self n with
        _maxDataLevel := self._maxDataLevel,
        _reopenRequired := self._reopenRequired } = self ∧
    { setTileSize self n with
        _tileSize := self._tileSize, _reopenRequired := self._reopenRequired } = self ∧
    { setUpsample self b with _upsample := self._upsample } = self :=
  ⟨rfl, rfl, rfl, rfl, rfl, rfl, rfl⟩

/-- The getter after `setUpsample` returns a set option holding `true`, whatever the
argument. -/
theorem upsample_after_setUpsample (self : TileLayer) (b : Bool) :
    upsample (setUpsample self b) = ⟨true, true⟩ := rfl

/-- C26 at the failing input: on the sample layer each of `setMinLevel`, `setMaxLevel`,
`setMinResolution`, `setMaxResolution`, `setMaxDataLevel`, `setTileSize` and
`setUpsample(true)` is followed by a getter returning a set option with the argument, but
after `setUpsample(false)` the getter `upsample()` returns a set option holding `true`. -/
theorem upsample_setUpsample_failing :
    minLevel (setMinLevel Sample.layer 3) = ⟨true, 3⟩ ∧
    maxLevel (setMaxLevel Sample.layer 3) = ⟨true, 3⟩ ∧
    minResolution (setMinResolution Sample.layer 3) = ⟨true, 3⟩ ∧
    maxResolution (setMaxResolution Sample.layer 3) = ⟨true, 3⟩ ∧
    maxDataLevel (setMaxDataLevel Sample.layer 3) = ⟨true, 3⟩ ∧
    tileSize (setTileSize Sample.layer 3) = ⟨true, 3⟩ ∧
    upsample (setUpsample Sample.layer true) = ⟨true, true⟩ ∧
    upsample (setUpsample Sample.layer false) = ⟨true, true⟩ ∧
    upsample (setUpsample Sample.layer false) ≠ ⟨true, false⟩ := by
  refine ⟨rfl, rfl, rfl, rfl, rfl, rfl, rfl, rfl, by decide⟩

end TileLayer

namespace CacheBinMetadata

/-! ### Copies of the cache-bin metadata -/

/-- The copy constructor copies the eight members it names and leaves the data-extent list
of the copy empty. -/
theorem copy_fields (m : CacheBinMetadata) :
    (copy m)._valid = m._valid ∧ (copy m)._cacheBinId = m._cacheBinId ∧
    (copy m)._sourceName = m._sourceName ∧ (copy m)._sourceDriver = m._sourceDriver ∧
    (copy m)._sourceTileSize = m._sourceTileSize ∧
    (copy m)._sourceProfile = m._sourceProfile ∧
    (copy m)._cacheProfile = m._cacheProfile ∧
    (copy m)._cacheCreateTime = m._cacheCreateTime ∧
    (copy m)._dataExtents = [] :=
  ⟨rfl, rfl, rfl, rfl, rfl, rfl, rfl, rfl, rfl⟩

/-- C27 at the failing input: the copy of the sample metadata, which holds one data extent,
has the same validity flag, identifier, source name and driver, tile size, profiles and
creation time, but an empty data-extent list; its `getConfig()` has no `extents` child
while that of the original has one with one `extent`, so the two configs differ. -/
theorem copy_dataExtents_failing :
    Sample.metadata._dataExtents.length = 1 ∧
    (copy Sample.metadata)._dataExtents = [] ∧
    (copy Sample.metadata)._valid = Sample.metadata._valid ∧
    (copy Sample.metadata)._cacheBinId = Sample.metadata._cacheBinId ∧
    (copy Sample.metadata)._sourceTileSize = Sample.metadata._sourceTileSize ∧
    (getConfig Sample.codec Sample.metadata).hasChild "extents" = true ∧
    (getConfig Sample.codec (copy Sample.metadata)).hasChild "extents" = false ∧
    getConfig Sample.codec (copy Sample.metadata) ≠ getConfig Sample.codec Sample.metadata := by
  have h1 : (getConfig Sample.codec Sample.metadata).hasChild "extents" = true := by decide
  have h2 : (getConfig Sample.codec (copy Sample.metadata)).hasChild "extents" = false := by
    decide
  refine ⟨rfl, rfl, rfl, rfl, rfl, h1, h2, ?_⟩
  intro h
  rw [h, h1] at h2
  cases h2

end CacheBinMetadata

end Rocky
